import Mathlib

/-!
# go-midjourney: recent-jobs query builder and pagination cursor

A shallow embedding of `recent_jobs.go`: the query record, its serialisation to
URL parameters (`Values`), the pagination successor (`NextPage`) and the page
fetch (`RecentJobs`) with its presets.  Clock readings and the HTTP transport
are explicit inputs.
-/

namespace Midjourney

/-! ## Go integers and strings -/

/-- Wrap-around of a mathematical integer into Go's 64-bit `int`. -/
def wrapInt (x : Int) : Int := (x + 9223372036854775808) % 18446744073709551616 - 9223372036854775808

/-- The ASCII digit of a value below ten. -/
def digitChar (d : Nat) : Char := Char.ofNat (48 + d % 10)

/-- Decimal digits of `u`, most significant first, pushed in front of `acc`:
the loop `for u >= 10 { buf[i] = u%10; u /= 10 }; buf[i] = u` of the Go
formatters.  The first argument bounds the number of iterations. -/
def decDigitsAux : Nat → Nat → List Char → List Char
  | 0, u, acc => digitChar u :: acc
  | fuel + 1, u, acc =>
    if u < 10 then digitChar u :: acc
    else decDigitsAux fuel (u / 10) (digitChar (u % 10) :: acc)

/-- Decimal digits of a natural number (`u` iterations always suffice). -/
def decDigits (u : Nat) : List Char := decDigitsAux u u []

/-- Go's `strconv.Itoa`: the decimal string of an `int`, with a leading minus
sign for negative values. -/
def Itoa (i : Int) : String :=
  String.mk ((if i < 0 then ['-'] else []) ++ decDigits i.natAbs)

/-! ## time.Time -/

/-- Go's `time.Time`, reduced to what the package reads: the instant as seconds
since 0001-01-01 00:00:00 UTC (`sec`) with the nanoseconds within that second
(`nsec`, always below one billion), and the offset east of UTC, in seconds,
that the value's Location assigns to this instant (`offset`, 0 for UTC). -/
structure Time where
  sec : Int
  nsec : Fin 1000000000
  offset : Int
  deriving DecidableEq, Repr

namespace Time

/-- The zero value `time.Time{}`: 0001-01-01 00:00:00 UTC. -/
def zero : Time := { sec := 0, nsec := 0, offset := 0 }

/-- Go's `Time.IsZero`: the instant is January 1, year 1, 00:00:00 UTC. -/
def IsZero (t : Time) : Bool := t.sec == 0 && t.nsec.val == 0

/-- Go's `Time.UTC`: same instant, Location set to UTC. -/
def UTC (t : Time) : Time := { t with offset := 0 }

/-! ### Calendar fields and formatting (Go's `time` package) -/

/-- Go's `secondsPerDay`. -/
def secondsPerDay : Nat := 86400

/-- Go's `daysPer400Years`. -/
def daysPer400Years : Nat := 365 * 400 + 97

/-- Go's `daysPer100Years`. -/
def daysPer100Years : Nat := 365 * 100 + 24

/-- Go's `daysPer4Years`. -/
def daysPer4Years : Nat := 365 * 4 + 1

/-- Go's `absoluteZeroYear`, the year of the zero of the absolute time scale. -/
def absoluteZeroYear : Int := -292277022399

/-- Go's `internalToAbsolute`:
`-(absoluteZeroYear - internalYear) * 365.2425 * secondsPerDay`. -/
def internalToAbsolute : Int := 292277022400 * 31556952

/-- Go's `Time.abs`: seconds since the absolute zero year in the value's
Location, as a `uint64`. -/
def abs (t : Time) : Nat :=
  ((t.sec + t.offset + internalToAbsolute) % 18446744073709551616).toNat

/-- Go's `isLeap`. -/
def isLeap (year : Int) : Bool :=
  year % 4 == 0 && (year % 100 != 0 || year % 400 == 0)

/-- Go's `daysBefore` table: days in a non-leap year before each month. -/
def daysBefore : List Nat :=
  [0, 31, 59, 90, 120, 151, 181, 212, 243, 273, 304, 334, 365]

/-- Go's `absDate` (with `full = true`): year, month and day of month of an
absolute time. -/
def absDate (abs : Nat) : Int × Nat × Nat :=
  let d := abs / secondsPerDay
  let n := d / daysPer400Years
  let y := 400 * n
  let d := d - daysPer400Years * n
  let n := d / daysPer100Years
  let n := n - n / 4
  let y := y + 100 * n
  let d := d - daysPer100Years * n
  let n := d / daysPer4Years
  let y := y + 4 * n
  let d := d - daysPer4Years * n
  let n := d / 365
  let n := n - n / 4
  let y := y + n
  let d := d - 365 * n
  let year : Int := (y : Int) + absoluteZeroYear
  let day := d
  if isLeap year && day == 31 + 29 - 1 then (year, 2, 29)
  else
    let day := if isLeap year && day > 31 + 29 - 1 then day - 1 else day
    let month := day / 31
    let stop := daysBefore.getD (month + 1) 0
    let mb : Nat × Nat :=
      if day >= stop then (month + 1, stop) else (month, daysBefore.getD month 0)
    (year, mb.1 + 1, day - mb.2 + 1)

/-- Go's `absClock`: hour, minute and second of an absolute time. -/
def absClock (abs : Nat) : Nat × Nat × Nat :=
  let sec := abs % secondsPerDay
  let hour := sec / 3600
  let sec := sec - hour * 3600
  let min := sec / 60
  let sec := sec - min * 60
  (hour, min, sec)

/-- Go's `Time.Year`. -/
def Year (t : Time) : Int := (absDate t.abs).1

/-- Go's `appendInt`: the decimal text of `x`, zero-padded to `width` digits,
after a minus sign when `x` is negative. -/
def appendInt (x : Int) (width : Nat) : List Char :=
  let ds := decDigits x.natAbs
  (if x < 0 then ['-'] else []) ++ List.replicate (width - ds.length) '0' ++ ds

/-- The loop of `formatNano` that drops trailing zeros: the largest `m ≤ n`
with `m = 0` or `buf[m-1] ≠ '0'`. -/
def trimZeros (buf : List Char) : Nat → Nat
  | 0 => 0
  | n + 1 => if buf.getD n ' ' == '0' then trimZeros buf n else n + 1

/-- Go's `formatNano`: the fractional second to `n` digits after the separator
`dot`; with `trim`, trailing zeros are removed, and the separator too when
nothing is left. -/
def formatNano (nanosec : Nat) (n : Nat) (trim : Bool) (dot : Char) : List Char :=
  let buf := appendInt (nanosec : Int) 9
  let n := if n > 9 then 9 else n
  let n := if trim then trimZeros buf n else n
  if trim && n == 0 then [] else dot :: buf.take n

/-- The elements of a layout string that `FromDateFormat` uses, as Go's
`nextStdChunk` classifies them; a fractional second carries its number of
digits and its separator. -/
inductive Chunk
  | lit (s : String)
  | stdLongYear
  | stdZeroMonth
  | stdZeroDay
  | stdHour
  | stdZeroMinute
  | stdZeroSecond
  | stdFracSecond0 (digits : Nat) (dot : Char)
  | stdFracSecond9 (digits : Nat) (dot : Char)
  deriving DecidableEq, Repr

/-- Go's `isDigit(s, i)`: position `i` exists and holds a decimal digit. -/
def isDigitAt (s : List Char) (i : Nat) : Bool :=
  match s.get? i with
  | some c => c.isDigit
  | none => false

/-- Go's `nextStdChunk`, iterated over a layout, for the elements `2006`, `01`,
`02`, `04`, `05`, `15` and the fractional seconds `.000…` / `.999…` (a dot or
comma, then a run of zeros or of nines that no digit follows); every other
character is taken as literal text.  The first argument bounds the number of
steps. -/
def splitLayoutAux : Nat → List Char → List Chunk
  | 0, _ => []
  | _, [] => []
  | fuel + 1, c :: rest =>
    if "2006".data.isPrefixOf (c :: rest) then
      .stdLongYear :: splitLayoutAux fuel (rest.drop 3)
    else if "01".data.isPrefixOf (c :: rest) then
      .stdZeroMonth :: splitLayoutAux fuel (rest.drop 1)
    else if "02".data.isPrefixOf (c :: rest) then
      .stdZeroDay :: splitLayoutAux fuel (rest.drop 1)
    else if "04".data.isPrefixOf (c :: rest) then
      .stdZeroMinute :: splitLayoutAux fuel (rest.drop 1)
    else if "05".data.isPrefixOf (c :: rest) then
      .stdZeroSecond :: splitLayoutAux fuel (rest.drop 1)
    else if "15".data.isPrefixOf (c :: rest) then
      .stdHour :: splitLayoutAux fuel (rest.drop 1)
    else if (c == '.' || c == ',') && (rest.head? == some '0' || rest.head? == some '9') then
      let ch := rest.headD '0'
      let run := (rest.takeWhile (fun x => x == ch)).length
      if isDigitAt rest run then .lit (String.singleton c) :: splitLayoutAux fuel rest
      else
        (if ch == '0' then Chunk.stdFracSecond0 run c else Chunk.stdFracSecond9 run c)
          :: splitLayoutAux fuel (rest.drop run)
    else .lit (String.singleton c) :: splitLayoutAux fuel rest

/-- A layout split into its elements (one step per character always suffices). -/
def splitLayout (layout : String) : List Chunk :=
  splitLayoutAux layout.length layout.data

/-- One step of the loop of Go's `Time.AppendFormat`: the text of one layout
element. -/
def formatChunk (t : Time) : Chunk → List Char
  | .lit s => s.data
  | .stdLongYear => appendInt (absDate t.abs).1 4
  | .stdZeroMonth => appendInt (absDate t.abs).2.1 2
  | .stdZeroDay => appendInt (absDate t.abs).2.2 2
  | .stdHour => appendInt (absClock t.abs).1 2
  | .stdZeroMinute => appendInt (absClock t.abs).2.1 2
  | .stdZeroSecond => appendInt (absClock t.abs).2.2 2
  | .stdFracSecond0 n dot => formatNano t.nsec.val n false dot
  | .stdFracSecond9 n dot => formatNano t.nsec.val n true dot

/-- Go's `Time.Format`: the texts of the layout's elements, in order. -/
def Format (t : Time) (layout : String) : String :=
  String.mk ((splitLayout layout).map (formatChunk t)).flatten

end Time

/-! ## url.Values -/

/-- Go's `url.Values` (`map[string][]string`) as an association list with
distinct keys. -/
abbrev UrlValues := List (String × List String)

namespace UrlValues

/-- Go's `Values.Set`: the key is bound to the one-element list `[value]`,
replacing whatever it was bound to. -/
def Set (v : UrlValues) (key value : String) : UrlValues :=
  v.filter (fun p => p.1 != key) ++ [(key, [value])]

/-- Map lookup `v[key]`: the values bound to `key`, if the key is present. -/
def lookup (v : UrlValues) (key : String) : Option (List String) :=
  List.lookup key v

/-- Key presence: `_, ok := v[key]`. -/
def Has (v : UrlValues) (key : String) : Bool := (lookup v key).isSome

end UrlValues

/-! ## The query -/

/-- The `Order` constant `OrderNew`. -/
def OrderNew : String := "new"

/-- The `Order` constant `OrderHot`. -/
def OrderHot : String := "hot"

/-- The `Order` constant `OrderLikedTime`. -/
def OrderLikedTime : String := "liked_timestamp"

/-- The struct `RecentJobsQuery`; `JobType`, `Order` and `JobStatus` are string
types. -/
structure RecentJobsQuery where
  Amount : Int
  JobType : String
  OrderBy : String
  JobStatus : String
  UserID : String
  UserIDLiked : String
  FromDate : Time
  Page : Int
  Prompt : String
  Personal : Bool
  Dedupe : Bool
  RefreshAPI : Int
  deriving DecidableEq, Repr

/-- The constant `FromDateFormat`. -/
def FromDateFormat : String := "2006-01-02 15:04:05.999999"

namespace RecentJobsQuery

/-- The method `Values`. -/
def Values (rjq : RecentJobsQuery) : UrlValues :=
  let v : UrlValues := []
  let v := if rjq.Amount != 0 then v.Set "amount" (Itoa rjq.Amount) else v
  let v := if rjq.JobType != "" then v.Set "jobType" rjq.JobType else v
  let v := if rjq.OrderBy != "" then v.Set "orderBy" rjq.OrderBy else v
  let v := if rjq.JobStatus != "" then v.Set "jobStatus" rjq.JobStatus else v
  let v := if rjq.UserID != "" then v.Set "userId" rjq.UserID else v
  let v := if rjq.UserIDLiked != "" then v.Set "userIdLiked" rjq.UserIDLiked else v
  let v := if !rjq.FromDate.IsZero then
      v.Set "fromDate" (rjq.FromDate.Format FromDateFormat) else v
  let v := if rjq.Page != 0 then v.Set "page" (Itoa rjq.Page) else v
  let v := if rjq.Prompt != "" then v.Set "prompt" rjq.Prompt else v
  let v := if rjq.Personal then v.Set "personal" "true" else v
  let v := if rjq.Dedupe then v.Set "dedupe" "true" else v
  let v := v.Set "refreshApi" (Itoa rjq.RefreshAPI)
  v

/-- The zero value `RecentJobsQuery{}`. -/
def empty : RecentJobsQuery :=
  { Amount := 0, JobType := "", OrderBy := "", JobStatus := "", UserID := "",
    UserIDLiked := "", FromDate := Time.zero, Page := 0, Prompt := "",
    Personal := false, Dedupe := false, RefreshAPI := 0 }

/-- The method `NextPage`, with the reading of `time.Now()` as the input `now`. -/
def NextPage (now : Time) (rjq : RecentJobsQuery) : RecentJobsQuery :=
  let q := rjq
  let q := if q.OrderBy == OrderNew && q.FromDate.IsZero then
      { q with FromDate := now.UTC } else q
  let q := if q.Page == 0 then { q with Page := 1 } else q
  let q := { q with Page := wrapInt (rjq.Page + 1) }
  q

end RecentJobsQuery

/-! ## Errors, transport and the page fetch -/

/-- Go error values: an error with a message, possibly wrapping another one
(the `%w` verb of `fmt.Errorf`). -/
inductive GoError
  | leaf (msg : String)
  | wrap (msg : String) (inner : GoError)
  deriving DecidableEq, Repr

namespace GoError

/-- The method `Error()`: the error's text. -/
def Error : GoError → String
  | leaf msg => msg
  | wrap msg _ => msg

/-- Go's `errors.Is`: `target` is `e` or is reached by unwrapping `e`. -/
def Is : GoError → GoError → Bool
  | leaf msg, target => decide (leaf msg = target)
  | wrap msg inner, target => decide (wrap msg inner = target) || Is inner target

/-- Go's `fmt.Errorf("%w: %s", e, s)` (also for a literal text `s`). -/
def Errorf (e : GoError) (s : String) : GoError :=
  wrap (e.Error ++ ": " ++ s) e

end GoError

/-- Package-level declarations that `recent_jobs.go` uses and other files of
the package declare, taken as parameters: the error values `Err` and
`ErrResponseStatus` and the `JobType` / `JobStatus` constants. -/
structure Decls where
  Err : GoError
  ErrResponseStatus : GoError
  JobTypeNull : String
  JobTypeUpscale : String
  JobStatusCompleted : String

/-- The package variable `ErrUserIDRequired`. -/
def ErrUserIDRequired (D : Decls) : GoError := GoError.Errorf D.Err "user id required"

/-- An `http.Request` as built here: method and URL text. -/
structure Request where
  Method : String
  URL : String
  deriving DecidableEq, Repr

/-- An `http.Response`: status code, status text and body. -/
structure Response where
  StatusCode : Int
  Status : String
  Body : String
  deriving DecidableEq, Repr

/-- The standard-library calls of `RecentJobs`, taken as parameters:
`url.Values.Encode`, `http.NewRequestWithContext` at the call's context
(method, URL), and JSON decoding of a body into a list of job records. -/
structure Lib (Job : Type) where
  Encode : UrlValues → String
  NewRequest : String → String → Except GoError Request
  Decode : String → Except GoError (List Job)

/-- The `Client`, declared in another file: its method `Do` is the transport. -/
structure Client where
  Do : Request → Except GoError Response

/-- What a call does besides returning: requests it builds, requests it hands to
the transport, bodies it decodes and bodies it closes, in order. -/
inductive Event
  | newRequest (method url : String)
  | dispatch (req : Request)
  | decode (body : String)
  | close (body : String)
  deriving DecidableEq, Repr

/-- The struct `RecentJobs`: one fetched page. -/
structure RecentJobs (Job : Type) where
  Query : RecentJobsQuery
  Jobs : List Job
  Page : Int

/-- Go's `URL.String` for a URL with only `Path` and `RawQuery` set, the path
being relative and free of colons. -/
def urlString (path rawQuery : String) : String :=
  if rawQuery != "" then path ++ "?" ++ rawQuery else path

/-- Go's `http.StatusOK`. -/
def StatusOK : Int := 200

namespace Client

variable {Job : Type}

/-- The method `Client.RecentJobs`, with the reading of `time.Now()` as the
input `now`; the second component lists what the call did. -/
def RecentJobs (L : Lib Job) (D : Decls) (c : Client) (now : Time)
    (q : RecentJobsQuery) : Except GoError (Midjourney.RecentJobs Job) × List Event :=
  let u := urlString "app/recent-jobs/" (L.Encode q.Values)
  match L.NewRequest "GET" u with
  | .error err => (.error err, [.newRequest "GET" u])
  | .ok req =>
    let now := now.UTC
    match c.Do req with
    | .error err => (.error err, [.newRequest "GET" u, .dispatch req])
    | .ok resp =>
      if resp.StatusCode != StatusOK then
        (.error (GoError.Errorf D.ErrResponseStatus resp.Status),
          [.newRequest "GET" u, .dispatch req, .close resp.Body])
      else
        let rj : Midjourney.RecentJobs Job := { Query := q, Jobs := [], Page := q.Page }
        match L.Decode resp.Body with
        | .error err =>
          (.error err,
            [.newRequest "GET" u, .dispatch req, .decode resp.Body, .close resp.Body])
        | .ok jobs =>
          let rj := { rj with Jobs := jobs }
          let rj := if rj.Query.OrderBy == OrderNew && rj.Query.FromDate.IsZero then
              { rj with Query := { rj.Query with FromDate := now } } else rj
          (.ok rj,
            [.newRequest "GET" u, .dispatch req, .decode resp.Body, .close resp.Body])

/-- The method `Client.Home`. -/
def Home (L : Lib Job) (D : Decls) (c : Client) (now : Time) (userID : String) :
    Except GoError (Midjourney.RecentJobs Job) × List Event :=
  if userID == "" then (.error (ErrUserIDRequired D), [])
  else
    RecentJobs L D c now
      { RecentJobsQuery.empty with
        Amount := 50, JobType := D.JobTypeNull, OrderBy := OrderNew,
        JobStatus := D.JobStatusCompleted, UserID := userID, Dedupe := true }

/-- The method `Client.CommunityFeed`. -/
def CommunityFeed (L : Lib Job) (D : Decls) (c : Client) (now : Time) :
    Except GoError (Midjourney.RecentJobs Job) × List Event :=
  RecentJobs L D c now
    { RecentJobsQuery.empty with
      Amount := 50, JobType := D.JobTypeUpscale, OrderBy := OrderHot,
      JobStatus := D.JobStatusCompleted, Dedupe := true }

/-- The method `Client.PersonalFeed`. -/
def PersonalFeed (L : Lib Job) (D : Decls) (c : Client) (now : Time) :
    Except GoError (Midjourney.RecentJobs Job) × List Event :=
  RecentJobs L D c now
    { RecentJobsQuery.empty with
      Amount := 50, JobType := D.JobTypeUpscale, OrderBy := OrderNew,
      JobStatus := D.JobStatusCompleted, Personal := true, Dedupe := true }

/-- The method `Client.Bookmarks`. -/
def Bookmarks (L : Lib Job) (D : Decls) (c : Client) (now : Time) (userID : String) :
    Except GoError (Midjourney.RecentJobs Job) × List Event :=
  if userID == "" then (.error (ErrUserIDRequired D), [])
  else
    RecentJobs L D c now
      { RecentJobsQuery.empty with
        Amount := 50, JobType := D.JobTypeNull, OrderBy := OrderLikedTime,
        JobStatus := D.JobStatusCompleted, UserIDLiked := userID, Dedupe := true }

end Client

/-! ## Shapes of texts -/

/-- The text `cs` has the shape `mask`: same length, a decimal digit wherever
the mask has `d`, and the mask's own character everywhere else. -/
def matchesMask : List Char → List Char → Bool
  | [], [] => true
  | m :: ms, c :: cs => (if m = 'd' then c.isDigit else c == m) && matchesMask ms cs
  | _, _ => false

/-- The `w` low decimal digits of `x`, most significant first. -/
def padDigits : Nat → Nat → List Char
  | 0, _ => []
  | w + 1, x => padDigits w (x / 10) ++ [digitChar (x % 10)]

/-! ## Queries behind pointers -/

/-- Memory holding `RecentJobsQuery` structs: a pointer `*RecentJobsQuery` is an
index into the list. -/
abbrev QueryHeap := List RecentJobsQuery

namespace QueryHeap

/-- Dereference `*p`; `none` for a pointer that holds no struct. -/
def load (h : QueryHeap) (p : Nat) : Option RecentJobsQuery := h.get? p

/-- A fresh struct holding `q`: the new memory and the pointer `&q`. -/
def alloc (h : QueryHeap) (q : RecentJobsQuery) : QueryHeap × Nat := (h ++ [q], h.length)

end QueryHeap

/-- The method `NextPage` on its pointer receiver: `q := *rjq` copies the
receiver's struct, every assignment of the body writes to the local copy `q`
(none stores through `rjq`), and `&q` is returned as a fresh struct. -/
def NextPagePtr (now : Time) (h : QueryHeap) (rjq : Nat) : Option (QueryHeap × Nat) :=
  match h.load rjq with
  | none => none
  | some r => some (h.alloc (r.NextPage now))

/-- Go's `math.MaxInt64`, the largest `int`. -/
def maxInt : Int := 9223372036854775807

/-- Go's `math.MinInt64`, the smallest `int`. -/
def minInt : Int := -9223372036854775808

/-- The number written by a text of decimal digits, most significant first. -/
def digitsVal (cs : List Char) : Nat :=
  cs.foldl (fun acc c => acc * 10 + (c.toNat - 48)) 0

/-- The text `s` is the decimal string of the integer `i`: a minus sign exactly
when `i` is negative, then one or more decimal digits that write the magnitude
of `i`, with no leading zero unless the digits are the single `0`. -/
def isDecimalOf (s : String) (i : Int) : Bool :=
  let ds := if i < 0 then s.data.drop 1 else s.data
  (if i < 0 then s.data.head? == some '-' else true)
    && !ds.isEmpty && ds.all Char.isDigit
    && (ds.length == 1 || ds.head? != some '0')
    && digitsVal ds == i.natAbs

/-! ## Parsing a time (Go's `time.Parse`) -/

namespace Time

/-- Go's `leadingInt`: the number written by the leading decimal digits of a
text and the rest of the text; `none` when the number exceeds `1 << 63`. -/
def leadingInt (x : Nat) : List Char → Option (Nat × List Char)
  | [] => some (x, [])
  | c :: cs =>
    if !c.isDigit then some (x, c :: cs)
    else if x > 9223372036854775808 / 10 then none
    else if x * 10 + (c.toNat - 48) > 9223372036854775808 then none
    else leadingInt (x * 10 + (c.toNat - 48)) cs

/-- Go's `atoi` of package `time`: an optional sign and decimal digits, nothing
else. -/
def atoi (s : List Char) : Option Int :=
  let neg := s.head? == some '-'
  let s := if s.head? == some '-' || s.head? == some '+' then s.drop 1 else s
  match leadingInt 0 s with
  | some (q, []) => some (if neg then -wrapInt q else wrapInt q)
  | _ => none

/-- Go's `getnum`: one or two leading digits as a number (`fixed` demands two)
and the rest of the text. -/
def getnum (s : List Char) (fixed : Bool) : Option (Int × List Char) :=
  if !isDigitAt s 0 then none
  else if !isDigitAt s 1 then
    if fixed then none else some ((((s.getD 0 '0').toNat - 48 : Nat) : Int), s.drop 1)
  else
    some (((((s.getD 0 '0').toNat - 48) * 10 + ((s.getD 1 '0').toNat - 48) : Nat) : Int),
      s.drop 2)

/-- Go's `commaOrPeriod`. -/
def commaOrPeriod (c : Char) : Bool := c == '.' || c == ','

/-- Go's `parseNanoseconds`: the fraction `value[1:nbytes]` after the separator
`value[0]`, scaled to nanoseconds. -/
def parseNanoseconds (value : List Char) (nbytes : Nat) : Option Int :=
  if !commaOrPeriod (value.getD 0 ' ') then none
  else
    let nbytes := if nbytes > 10 then 10 else nbytes
    match atoi ((value.take nbytes).drop 1) with
    | none => none
    | some ns => if ns < 0 then none else some (ns * 10 ^ (10 - nbytes))

/-- Go's `cutspace`. -/
def cutspace (s : List Char) : List Char := s.dropWhile (fun c => c == ' ')

/-- Go's `skip`: the value without the literal text `lit` that the layout
demands; a space in the layout stands for any run of spaces.  The first
argument bounds the number of steps. -/
def skipAux : Nat → List Char → List Char → Option (List Char)
  | 0, value, _ => some value
  | _ + 1, value, [] => some value
  | fuel + 1, value, p :: ps =>
    if p == ' ' then
      if value.head?.isSome && value.head? != some ' ' then none
      else skipAux fuel (cutspace value) (cutspace (p :: ps))
    else
      match value with
      | [] => none
      | v :: vs => if v != p then none else skipAux fuel vs ps

/-- Go's `skip` (one step per character of the literal text suffices). -/
def skip (value lit : List Char) : Option (List Char) := skipAux lit.length value lit

/-- The fields `Parse` collects. -/
structure Fields where
  year : Int
  month : Int
  day : Int
  hour : Int
  min : Int
  sec : Int
  nsec : Int
  deriving DecidableEq, Repr

/-- The first layout element after the literal text: what Go's
`nextStdChunk(layout)` returns on the rest of the layout. -/
def nextStd : List Chunk → Option Chunk
  | [] => none
  | .lit _ :: rest => nextStd rest
  | c :: _ => some c

/-- One case of the `switch` in Go's `parse`: the element `std` read from the
front of `value`, with `rest` the layout still to come. -/
def parseChunk (std : Chunk) (rest : List Chunk) (f : Fields) (value : List Char) :
    Option (Fields × List Char) :=
  match std with
  | .lit _ => some (f, value)
  | .stdLongYear =>
    if value.length < 4 || !isDigitAt value 0 then none
    else
      match atoi (value.take 4) with
      | none => none
      | some y => some ({ f with year := y }, value.drop 4)
  | .stdZeroMonth =>
    match getnum value true with
    | none => none
    | some (m, v) => if m ≤ 0 || 12 < m then none else some ({ f with month := m }, v)
  | .stdZeroDay =>
    match getnum value true with
    | none => none
    | some (d, v) => some ({ f with day := d }, v)
  | .stdHour =>
    match getnum value false with
    | none => none
    | some (h, v) => if h < 0 || 24 ≤ h then none else some ({ f with hour := h }, v)
  | .stdZeroMinute =>
    match getnum value true with
    | none => none
    | some (m, v) => if m < 0 || 60 ≤ m then none else some ({ f with min := m }, v)
  | .stdZeroSecond =>
    match getnum value true with
    | none => none
    | some (s, v) =>
      if s < 0 || 60 ≤ s then none
      else if v.length ≥ 2 && commaOrPeriod (v.getD 0 ' ') && isDigitAt v 1 then
        match nextStd rest with
        | some (.stdFracSecond0 _ _) => some ({ f with sec := s }, v)
        | some (.stdFracSecond9 _ _) => some ({ f with sec := s }, v)
        | _ =>
          let n := 2 + ((v.drop 2).takeWhile Char.isDigit).length
          match parseNanoseconds v n with
          | none => none
          | some ns => some ({ f with sec := s, nsec := ns }, v.drop n)
      else some ({ f with sec := s }, v)
  | .stdFracSecond0 n _ =>
    if value.length < 1 + n then none
    else
      match parseNanoseconds value (1 + n) with
      | none => none
      | some ns => some ({ f with nsec := ns }, value.drop (1 + n))
  | .stdFracSecond9 _ _ =>
    if value.length < 2 || !commaOrPeriod (value.getD 0 ' ') || !isDigitAt value 1 then
      some (f, value)
    else
      let i := ((value.drop 1).takeWhile Char.isDigit).length
      match parseNanoseconds value (1 + i) with
      | none => none
      | some ns => some ({ f with nsec := ns }, value.drop (1 + i))

/-- The loop of Go's `parse`: literal text is gathered in `lit` and skipped
before the next element is read; at the end of the layout no text may be left. -/
def parseChunks : List Chunk → List Char → Fields → List Char → Option Fields
  | [], lit, f, value =>
    match skip value lit with
    | none => none
    | some v => if v.isEmpty then some f else none
  | .lit s :: rest, lit, f, value => parseChunks rest (lit ++ s.data) f value
  | std :: rest, lit, f, value =>
    match skip value lit with
    | none => none
    | some v =>
      match parseChunk std rest f v with
      | none => none
      | some (f, v) => parseChunks rest [] f v

/-- Go's `norm`: `hi`, `lo` with `lo` brought into `0 ≤ lo < base`, the excess
carried into `hi`. -/
def norm (hi lo base : Int) : Int × Int :=
  let n1 := if lo < 0 then (-lo - 1) / base + 1 else 0
  let hi := hi - n1
  let lo := lo + n1 * base
  let n2 := if lo ≥ base then lo / base else 0
  (hi + n2, lo - n2 * base)

/-- Go's `daysSinceEpoch`: days from the absolute zero year to the start of
`year`. -/
def daysSinceEpoch (year : Int) : Nat :=
  let y := ((year - absoluteZeroYear) % 18446744073709551616).toNat
  let n := y / 400
  let y := y - 400 * n
  let d := daysPer400Years * n
  let n := y / 100
  let y := y - 100 * n
  let d := d + daysPer100Years * n
  let n := y / 4
  let y := y - 4 * n
  let d := d + daysPer4Years * n
  d + 365 * y

/-- Go's `daysIn`: the number of days of a month. -/
def daysIn (m : Int) (year : Int) : Int :=
  if m == 2 && isLeap year then 29
  else (daysBefore.getD m.toNat 0 : Int) - (daysBefore.getD (m - 1).toNat 0 : Int)

/-- Go's `Date` in the Location UTC: the time of the given calendar and clock
fields, out-of-range fields carried over. -/
def Date (year month day hour min sec nsec : Int) : Time :=
  let ym := norm year (month - 1) 12
  let year := ym.1
  let month := ym.2 + 1
  let sn := norm sec nsec 1000000000
  let ms := norm min sn.1 60
  let hm := norm hour ms.1 60
  let dh := norm day hm.1 24
  let d : Int := daysSinceEpoch year
  let d := d + (daysBefore.getD (month - 1).toNat 0 : Int)
  let d := if isLeap year && month ≥ 3 then d + 1 else d
  let d := d + (dh.1 - 1)
  let abs := (d * 86400 + (dh.2 * 3600 + hm.2 * 60 + ms.2)) % 18446744073709551616
  { sec := wrapInt (abs - internalToAbsolute),
    nsec := ⟨(sn.2 % 1000000000).toNat, by omega⟩,
    offset := 0 }

/-- Go's `time.Parse`: the time a text denotes under a layout, in UTC; `none`
where Go returns an error. -/
def Parse (layout value : String) : Option Time :=
  match parseChunks (splitLayout layout) []
      { year := 0, month := -1, day := -1, hour := 0, min := 0, sec := 0, nsec := 0 }
      value.data with
  | none => none
  | some f =>
    let month := if f.month < 0 then 1 else f.month
    let day := if f.day < 0 then 1 else f.day
    if day < 1 || day > daysIn month f.year then none
    else some (Date f.year month day f.hour f.min f.sec f.nsec)

/-- A time truncated to microsecond precision: Go's `t.Truncate(time.Microsecond)`. -/
def truncMicro (t : Time) : Time :=
  { t with nsec := ⟨t.nsec.val - t.nsec.val % 1000, by have := t.nsec.isLt; omega⟩ }

end Time

/-! ## The two halves of `absDate` -/

/-- Go's `absDate` with `full = false`: the year and the day of the year. -/
def Time.absYearDay (abs : Nat) : Int × Nat :=
  let d := abs / Time.secondsPerDay
  let n := d / Time.daysPer400Years
  let y := 400 * n
  let d := d - Time.daysPer400Years * n
  let n := d / Time.daysPer100Years
  let n := n - n / 4
  let y := y + 100 * n
  let d := d - Time.daysPer100Years * n
  let n := d / Time.daysPer4Years
  let y := y + 4 * n
  let d := d - Time.daysPer4Years * n
  let n := d / 365
  let n := n - n / 4
  let y := y + n
  let d := d - 365 * n
  ((y : Int) + Time.absoluteZeroYear, d)

/-- The table lookup of Go's `absDate`: the month (counted from 0) that holds a
day of the year, leap day removed, and the days before that month. -/
def Time.monthTable (day : Nat) : Nat × Nat :=
  let month := day / 31
  let stop := Time.daysBefore.getD (month + 1) 0
  if day >= stop then (month + 1, stop) else (month, Time.daysBefore.getD month 0)

/-- The second half of Go's `absDate`: month and day of the month from the day
of the year, given whether the year is a leap year. -/
def Time.monthDayOf (leap : Bool) (yday : Nat) : Nat × Nat :=
  if leap && yday == 31 + 29 - 1 then (2, 29)
  else
    let day := if leap && yday > 31 + 29 - 1 then yday - 1 else yday
    let mb := Time.monthTable day
    (mb.1 + 1, day - mb.2 + 1)

/-! ## Sample collaborators

Concrete values of the parameters, used to instantiate the theorems. -/

/-- Sample package declarations. -/
def sampleDecls : Decls :=
  { Err := .leaf "midjourney", ErrResponseStatus := .wrap "midjourney: response status" (.leaf "midjourney"),
    JobTypeNull := "null", JobTypeUpscale := "upscale", JobStatusCompleted := "completed" }

/-- Sample library: every request is built, parameters are joined as
`key=value` pairs, and only the empty array decodes. -/
def sampleLib : Lib String :=
  { Encode := fun v => String.intercalate "&" (v.map fun p => p.1 ++ "=" ++ String.join p.2),
    NewRequest := fun m u => .ok { Method := m, URL := u },
    Decode := fun body =>
      if body == "[]" then .ok [] else .error (.leaf "unexpected end of JSON input") }

/-- Sample transport answering every request with `200 OK` and an empty array. -/
def okClient : Client :=
  { Do := fun _ => .ok { StatusCode := 200, Status := "200 OK", Body := "[]" } }

/-- Sample transport answering every request with `503 Service Unavailable`. -/
def unavailableClient : Client :=
  { Do := fun _ => .ok { StatusCode := 503, Status := "503 Service Unavailable", Body := "" } }

/-- A sample query: ordered by `new`, every other field zero. -/
def newQuery : RecentJobsQuery := { RecentJobsQuery.empty with OrderBy := OrderNew }

/-- The page a successful fetch of `newQuery` returns when no job comes back and
the cursor is stamped with `t`. -/
def samplePage (t : Time) : RecentJobs String :=
  { Query := { newQuery with FromDate := t }, Jobs := [], Page := 0 }

/-- A sample clock reading: 2025-11-30 07:59:59.1234 UTC (Unix time 1764489599,
that is 63900086399 seconds after 0001-01-01 00:00:00 UTC). -/
def sampleNow : Time := { sec := 63900086399, nsec := 123400000, offset := 0 }

/-- A cursor on a whole second: 2025-11-30 07:59:59 UTC. -/
def wholeSecond : Time := { sec := 63900086399, nsec := 0, offset := 0 }

/-- A cursor whose microseconds end in zeros: 2025-11-30 07:59:59.120000 UTC. -/
def hundredths : Time := { sec := 63900086399, nsec := 120000000, offset := 0 }

/-- A cursor past the year 9999: 10000-01-01 00:00:00.123456 UTC, 3652059 days
after 0001-01-01. -/
def farFuture : Time := { sec := 3652059 * 86400, nsec := 123456000, offset := 0 }

/-- A sample query: ordered by `hot`, every other field zero. -/
def hotQuery : RecentJobsQuery := { RecentJobsQuery.empty with OrderBy := OrderHot }

/-- A sample query on the last page an `int` can count. -/
def lastPageQuery : RecentJobsQuery := { RecentJobsQuery.empty with Page := maxInt }

/-- A sample query one page before the last. -/
def nextToLastPageQuery : RecentJobsQuery := { RecentJobsQuery.empty with Page := maxInt - 1 }

/-- A sample query ordered by `hot`, one page before the last. -/
def hotNextToLastPageQuery : RecentJobsQuery :=
  { RecentJobsQuery.empty with OrderBy := OrderHot, Page := maxInt - 1 }

/-- A sample query on page 3. -/
def pageThreeQuery : RecentJobsQuery := { RecentJobsQuery.empty with Page := 3 }

/-- Sample library for the home-feed scenario: the body `[{"id":"a"},{"id":"b"}]`
decodes to the records `a`, `b`, in that order. -/
def scenarioLib : Lib String :=
  { Encode := sampleLib.Encode,
    NewRequest := sampleLib.NewRequest,
    Decode := fun body =>
      if body == "[\x7b\"id\":\"a\"\x7d,\x7b\"id\":\"b\"\x7d]" then .ok ["a", "b"]
      else sampleLib.Decode body }

/-- Sample transport answering every request with `200 OK` and two job records. -/
def scenarioClient : Client :=
  { Do := fun _ =>
      .ok { StatusCode := 200, Status := "200 OK",
            Body := "[\x7b\"id\":\"a\"\x7d,\x7b\"id\":\"b\"\x7d]" } }

/-- The query of the home-feed scenario, for the user `user123`. -/
def scenarioQuery : RecentJobsQuery :=
  { Amount := 50, JobType := "null", OrderBy := OrderNew, JobStatus := "completed",
    UserID := "user123", UserIDLiked := "", FromDate := Time.zero, Page := 0, Prompt := "",
    Personal := false, Dedupe := true, RefreshAPI := 0 }

/-- The request of the home-feed scenario. -/
def scenarioRequest : Request :=
  { Method := "GET",
    URL := urlString "app/recent-jobs/" (scenarioLib.Encode scenarioQuery.Values) }

/-- The response of the home-feed scenario. -/
def scenarioResponse : Response :=
  { StatusCode := 200, Status := "200 OK",
    Body := "[\x7b\"id\":\"a\"\x7d,\x7b\"id\":\"b\"\x7d]" }

/-- The sample clock reading one nanosecond later. -/
def sampleNowLater : Time := { sec := 63900086399, nsec := 123400001, offset := 0 }

/-- Two sample queries that differ in the cursor only, by one nanosecond. -/
def cursorQueryA : RecentJobsQuery :=
  { RecentJobsQuery.empty with Amount := 50, OrderBy := OrderNew, FromDate := sampleNow }

/-- The second of the two sample queries that differ in the cursor only. -/
def cursorQueryB : RecentJobsQuery :=
  { RecentJobsQuery.empty with Amount := 50, OrderBy := OrderNew, FromDate := sampleNowLater }

/-- A cursor in a Location one hour east of UTC: the instant
2025-11-30 07:59:59.123456789 UTC, read there as 08:59:59.123456789. -/
def offsetCursor : Time := { sec := 63900086399, nsec := 123456789, offset := 3600 }

/-! ## Lemmas on `url.Values` -/

theorem UrlValues.lookup_append_single (v : UrlValues) (key : String) (xs : List String)
    (k : String) :
    UrlValues.lookup (v ++ [(key, xs)]) k
      = match UrlValues.lookup v k with
        | some ys => some ys
        | none => if k = key then some xs else none := by
  induction v with
  | nil =>
    by_cases h : k = key
    · simp [UrlValues.lookup, List.lookup, h]
    · have : (k == key) = false := by simpa using h
      simp [UrlValues.lookup, List.lookup, h, this]
  | cons p v ih =>
    obtain ⟨a, b⟩ := p
    by_cases h : k = a
    · simp [UrlValues.lookup, List.lookup, h]
    · have hb : (k == a) = false := by simpa using h
      simpa [UrlValues.lookup, List.lookup, hb] using ih

theorem UrlValues.lookup_filter_ne (v : UrlValues) (key k : String) :
    UrlValues.lookup (v.filter (fun p => p.1 != key)) k
      = if k = key then none else UrlValues.lookup v k := by
  induction v with
  | nil => simp [UrlValues.lookup, List.lookup]
  | cons p v ih =>
    obtain ⟨a, b⟩ := p
    by_cases ha : a = key
    · subst ha
      by_cases h : k = a
      · subst h
        simpa [UrlValues.lookup, List.filter] using ih
      · have hb : (k == a) = false := by simpa using h
        simpa [UrlValues.lookup, List.filter, List.lookup, hb, h] using ih
    · have hf : (a != key) = true := by simpa using ha
      by_cases h : k = a
      · subst h
        simp [UrlValues.lookup, List.filter, hf, List.lookup, ha]
      · have hb : (k == a) = false := by simpa using h
        simpa [UrlValues.lookup, List.filter, hf, List.lookup, hb] using ih

/-- Reading a map after `Set`: the key just set holds exactly the new value,
every other key is untouched. -/
theorem UrlValues.lookup_Set (v : UrlValues) (key value k : String) :
    UrlValues.lookup (UrlValues.Set v key value) k
      = if k = key then some [value] else UrlValues.lookup v k := by
  unfold UrlValues.Set
  rw [UrlValues.lookup_append_single, UrlValues.lookup_filter_ne]
  by_cases h : k = key
  · simp [h]
  · simp only [h, if_false]
    cases UrlValues.lookup v k <;> rfl

theorem UrlValues.lookup_nil (k : String) : UrlValues.lookup [] k = none := rfl

/-! ## Lemmas on `time.Time` and `NextPage` -/

theorem Time.IsZero_UTC (t : Time) : t.UTC.IsZero = t.IsZero := rfl

theorem RecentJobsQuery.NextPage_OrderBy (now : Time) (q : RecentJobsQuery) :
    (q.NextPage now).OrderBy = q.OrderBy := by
  unfold RecentJobsQuery.NextPage
  simp only
  split_ifs <;> rfl

theorem RecentJobsQuery.NextPage_FromDate (now : Time) (q : RecentJobsQuery) :
    (q.NextPage now).FromDate
      = if q.OrderBy = OrderNew ∧ q.FromDate.IsZero = true then now.UTC else q.FromDate := by
  unfold RecentJobsQuery.NextPage
  by_cases h1 : q.OrderBy = OrderNew <;> by_cases h2 : q.FromDate.IsZero = true <;>
    simp [h1, h2] <;> split_ifs <;> rfl

theorem RecentJobsQuery.NextPage_Page (now : Time) (q : RecentJobsQuery) :
    (q.NextPage now).Page = wrapInt (q.Page + 1) := by
  unfold RecentJobsQuery.NextPage
  rfl

/-! ## Lemmas on `RecentJobs` -/

/-- A call of RecentJobs that returns a page built its request, got a response
with status 200 and decoded its body; the page is the input query, with the
cursor back-filled when ordered by `new` without one, the decoded jobs and the
input's page index. -/
theorem Client.RecentJobs_ok {Job : Type} (L : Lib Job) (D : Decls) (c : Client)
    (now : Time) (q : RecentJobsQuery) (page : Midjourney.RecentJobs Job)
    (hok : (Client.RecentJobs L D c now q).1 = .ok page) :
    ∃ req resp jobs,
      L.NewRequest "GET" (urlString "app/recent-jobs/" (L.Encode q.Values)) = .ok req ∧
      c.Do req = .ok resp ∧ resp.StatusCode = 200 ∧ L.Decode resp.Body = .ok jobs ∧
      page = { Query := if q.OrderBy = OrderNew ∧ q.FromDate.IsZero = true then
                  { q with FromDate := now.UTC } else q,
               Jobs := jobs, Page := q.Page } := by
  cases h1 : L.NewRequest "GET" (urlString "app/recent-jobs/" (L.Encode q.Values)) with
  | error e => simp [Client.RecentJobs, h1] at hok
  | ok req =>
    cases h2 : c.Do req with
    | error e => simp [Client.RecentJobs, h1, h2] at hok
    | ok resp =>
      by_cases h3 : resp.StatusCode = 200
      · cases h4 : L.Decode resp.Body with
        | error e => simp [Client.RecentJobs, h1, h2, h3, h4, StatusOK] at hok
        | ok jobs =>
          refine ⟨req, resp, jobs, rfl, h2, h3, h4, ?_⟩
          by_cases hc : q.OrderBy = OrderNew ∧ q.FromDate.IsZero = true
          · simp [Client.RecentJobs, h1, h2, h3, h4, StatusOK, hc.1, hc.2] at hok
            simp [hc.1, hc.2, ← hok]
          · simp only [hc, if_false]
            have hc2 : (q.OrderBy == OrderNew && q.FromDate.IsZero) = false := by
              by_cases ho : q.OrderBy = OrderNew
              · have : q.FromDate.IsZero = false := by
                  cases hz : q.FromDate.IsZero
                  · rfl
                  · exact absurd ⟨ho, hz⟩ hc
                simp [this]
              · simp [ho]
            simp [Client.RecentJobs, h1, h2, h3, h4, StatusOK, hc2] at hok
            exact hok.symm
      · simp [Client.RecentJobs, h1, h2, h3, StatusOK] at hok

theorem GoError.Is_self (e : GoError) : e.Is e = true := by
  cases e <;> simp [GoError.Is]

theorem GoError.Errorf_Is (e : GoError) (s : String) : (GoError.Errorf e s).Is e = true := by
  simp [GoError.Errorf, GoError.Is, GoError.Is_self]

theorem Client.RecentJobs_trace_ne_nil {Job : Type} (L : Lib Job) (D : Decls) (c : Client)
    (now : Time) (q : RecentJobsQuery) : (Client.RecentJobs L D c now q).2 ≠ [] := by
  unfold Client.RecentJobs
  simp only
  split
  · simp
  · split
    · simp
    · split_ifs
      · simp
      · split <;> simp
      · split <;> simp

/-! ## Lemmas on decimal digits -/

theorem decDigitsAux_eq (fuel : Nat) :
    ∀ u acc, u ≤ fuel → decDigitsAux fuel u acc = decDigits u ++ acc := by
  induction fuel using Nat.strong_induction_on with
  | _ fuel ih =>
    intro u acc hu
    by_cases h10 : u < 10
    · have h1 : decDigitsAux fuel u acc = digitChar u :: acc := by
        cases fuel <;> simp [decDigitsAux, h10]
      have h2 : decDigits u = [digitChar u] := by
        unfold decDigits
        cases u <;> simp [decDigitsAux, h10]
      rw [h1, h2]; rfl
    · obtain ⟨f, rfl⟩ : ∃ f, fuel = f + 1 := ⟨fuel - 1, by omega⟩
      obtain ⟨u', rfl⟩ : ∃ u', u = u' + 1 := ⟨u - 1, by omega⟩
      have e1 : decDigitsAux (f + 1) (u' + 1) acc
          = decDigitsAux f ((u' + 1) / 10) (digitChar ((u' + 1) % 10) :: acc) := by
        simp [decDigitsAux, h10]
      have e2 : decDigits (u' + 1)
          = decDigitsAux u' ((u' + 1) / 10) [digitChar ((u' + 1) % 10)] := by
        simp [decDigits, decDigitsAux, h10]
      rw [e1, e2, ih f (by omega) _ _ (by omega), ih u' (by omega) _ _ (by omega)]
      simp

theorem decDigits_lt_ten (u : Nat) (h : u < 10) : decDigits u = [digitChar u] := by
  unfold decDigits
  cases u <;> simp [decDigitsAux, h]

theorem decDigits_ge_ten (u : Nat) (h : 10 ≤ u) :
    decDigits u = decDigits (u / 10) ++ [digitChar (u % 10)] := by
  obtain ⟨u', rfl⟩ : ∃ u', u = u' + 1 := ⟨u - 1, by omega⟩
  have e2 : decDigits (u' + 1)
      = decDigitsAux u' ((u' + 1) / 10) [digitChar ((u' + 1) % 10)] := by
    simp [decDigits, decDigitsAux, Nat.not_lt.mpr h]
  rw [e2, decDigitsAux_eq u' _ _ (by omega)]

theorem digitChar_mod (d : Nat) : digitChar (d % 10) = digitChar d := by
  simp [digitChar]

theorem digitChar_isDigit (d : Nat) : (digitChar d).isDigit = true := by
  have h : d % 10 < 10 := Nat.mod_lt _ (by decide)
  unfold digitChar
  generalize d % 10 = k at h
  interval_cases k <;> decide

theorem digitChar_eq_zero (d : Nat) : digitChar d = '0' ↔ d % 10 = 0 := by
  have h : d % 10 < 10 := Nat.mod_lt _ (by decide)
  unfold digitChar
  generalize d % 10 = k at h
  interval_cases k <;> decide

theorem padDigits_length (w x : Nat) : (padDigits w x).length = w := by
  induction w generalizing x with
  | zero => rfl
  | succ w ih => simp [padDigits, ih]

theorem padDigits_zero (w : Nat) : padDigits w 0 = List.replicate w '0' := by
  induction w with
  | zero => rfl
  | succ w ih =>
    simp only [padDigits, Nat.zero_div, Nat.zero_mod, ih]
    rw [List.replicate_succ']
    rfl

theorem padDigits_isDigit (w x : Nat) : ∀ c ∈ padDigits w x, c.isDigit = true := by
  induction w generalizing x with
  | zero => simp [padDigits]
  | succ w ih =>
    intro c hc
    simp only [padDigits, List.mem_append, List.mem_singleton] at hc
    rcases hc with hc | hc
    · exact ih _ c hc
    · rw [hc]; exact digitChar_isDigit _

theorem decDigits_length_pos (u : Nat) : 1 ≤ (decDigits u).length := by
  by_cases h : u < 10
  · rw [decDigits_lt_ten u h]; simp
  · rw [decDigits_ge_ten u (by omega)]; simp

/-- Zero-padding the decimal digits of a number below `10^(w+1)` to `w+1`
places gives its `w+1` low digits. -/
theorem pad_decDigits (w : Nat) :
    ∀ x, x < 10 ^ (w + 1) →
      List.replicate (w + 1 - (decDigits x).length) '0' ++ decDigits x = padDigits (w + 1) x := by
  induction w with
  | zero =>
    intro x hx
    have hx10 : x < 10 := by simpa using hx
    rw [decDigits_lt_ten x hx10]
    simp [padDigits, digitChar_mod]
  | succ w ih =>
    intro x hx
    by_cases hx10 : x < 10
    · rw [decDigits_lt_ten x hx10]
      have hdiv : x / 10 = 0 := by omega
      rw [padDigits, hdiv, padDigits_zero, digitChar_mod]
      simp
    · have hlt : x / 10 < 10 ^ (w + 1) := by
        rw [pow_succ] at hx
        omega
      rw [decDigits_ge_ten x (by omega), padDigits, ← ih _ hlt]
      have hpos := decDigits_length_pos (x / 10)
      simp only [List.length_append, List.length_singleton, List.append_assoc]
      congr 2
      omega

/-! ## Lemmas on calendar fields -/

theorem Time.isLeap_iff (year : Int) :
    Time.isLeap year = true ↔ (year % 4 = 0 ∧ (year % 100 ≠ 0 ∨ year % 400 = 0)) := by
  simp [Time.isLeap]

/-- The month and day that follow from a day of the year below 365 (leap day
removed): the table lookup of `absDate`. -/
theorem Time.monthDay_bounds (day : Nat) (h : day ≤ 364) :
    1 ≤ (if day ≥ Time.daysBefore.getD (day / 31 + 1) 0 then
            (day / 31 + 1, Time.daysBefore.getD (day / 31 + 1) 0)
          else (day / 31, Time.daysBefore.getD (day / 31) 0)).1 + 1 ∧
    (if day ≥ Time.daysBefore.getD (day / 31 + 1) 0 then
            (day / 31 + 1, Time.daysBefore.getD (day / 31 + 1) 0)
          else (day / 31, Time.daysBefore.getD (day / 31) 0)).1 + 1 ≤ 12 ∧
    1 ≤ day - (if day ≥ Time.daysBefore.getD (day / 31 + 1) 0 then
            (day / 31 + 1, Time.daysBefore.getD (day / 31 + 1) 0)
          else (day / 31, Time.daysBefore.getD (day / 31) 0)).2 + 1 ∧
    day - (if day ≥ Time.daysBefore.getD (day / 31 + 1) 0 then
            (day / 31 + 1, Time.daysBefore.getD (day / 31 + 1) 0)
          else (day / 31, Time.daysBefore.getD (day / 31) 0)).2 + 1 ≤ 31 := by
  generalize hm : day / 31 = m
  have hm11 : m ≤ 11 := by omega
  interval_cases m <;> simp [Time.daysBefore] <;> split_ifs <;> simp <;> omega

/-- The month computed by `absDate` lies in 1..12 and the day in 1..31. -/
theorem Time.absDate_bounds (a : Nat) :
    1 ≤ (Time.absDate a).2.1 ∧ (Time.absDate a).2.1 ≤ 12 ∧
      1 ≤ (Time.absDate a).2.2 ∧ (Time.absDate a).2.2 ≤ 31 := by
  unfold Time.absDate
  simp only [show Time.secondsPerDay = 86400 from rfl,
    show Time.daysPer400Years = 146097 from rfl, show Time.daysPer100Years = 36524 from rfl,
    show Time.daysPer4Years = 1461 from rfl, show Time.absoluteZeroYear = -292277022399 from rfl]
  generalize a / 86400 = d0
  generalize hn1 : d0 / 146097 = n1
  generalize hd1 : d0 - 146097 * n1 = d1
  generalize hn2 : d1 / 36524 = n2
  generalize hd2 : d1 - 36524 * (n2 - n2 / 4) = d2
  generalize hn3 : d2 / 1461 = n3
  generalize hd3 : d2 - 1461 * n3 = d3
  generalize hn4 : d3 / 365 = n4
  generalize hd4 : d3 - 365 * (n4 - n4 / 4) = d4
  generalize hyr : ((400 * n1 + 100 * (n2 - n2 / 4) + 4 * n3 + (n4 - n4 / 4) : Nat) : Int)
    + -292277022399 = yr
  have hd1lt : d1 < 146097 := by omega
  have hn2le : n2 ≤ 4 := by omega
  have hd2le : d2 ≤ 36524 := by omega
  have hn3le : n3 ≤ 24 := by omega
  have hd3le : d3 ≤ 1460 := by omega
  have hn4le : n4 ≤ 4 := by omega
  have hd4le : d4 ≤ 365 := by omega
  have hleap : d4 = 365 → (yr % 4 = 0 ∧ (yr % 100 ≠ 0 ∨ yr % 400 = 0)) := by
    intro h
    have h4 : n4 = 4 := by omega
    have h3 : d3 = 1460 := by omega
    subst h4
    interval_cases n2 <;> omega
  cases hl : Time.isLeap yr
  · have h364 : d4 ≤ 364 := by
      by_contra hc
      have h365 : d4 = 365 := by omega
      have := (Time.isLeap_iff yr).2 (hleap h365)
      rw [hl] at this
      cases this
    simp only [Bool.false_and, Bool.false_eq_true, if_false]
    exact Time.monthDay_bounds d4 h364
  · by_cases h59 : d4 = 59
    · simp [h59]
    · have hb : (d4 == 31 + 29 - 1) = false := by simpa using h59
      simp only [Bool.true_and, hb, Bool.false_eq_true, if_false, decide_eq_true_eq]
      by_cases hgt : d4 > 31 + 29 - 1
      · simp only [hgt, if_true]
        exact Time.monthDay_bounds (d4 - 1) (by omega)
      · simp only [hgt, if_false]
        exact Time.monthDay_bounds d4 (by omega)

/-- The clock fields computed by `absClock`: hour below 24, minute and second
below 60. -/
theorem Time.absClock_bounds (a : Nat) :
    (Time.absClock a).1 ≤ 23 ∧ (Time.absClock a).2.1 ≤ 59 ∧ (Time.absClock a).2.2 ≤ 59 := by
  unfold Time.absClock
  simp only [show Time.secondsPerDay = 86400 from rfl]
  omega

/-! ## Lemmas on formatting -/

theorem Time.appendInt_nat (w x : Nat) (hx : x < 10 ^ (w + 1)) :
    Time.appendInt (x : Int) (w + 1) = padDigits (w + 1) x := by
  unfold Time.appendInt
  have hneg : ¬ ((x : Int) < 0) := by omega
  simp only [hneg, if_false, Int.natAbs_ofNat, List.nil_append]
  exact pad_decDigits w x hx

theorem padDigits_add (a b : Nat) :
    ∀ x, padDigits (a + b) x = padDigits a (x / 10 ^ b) ++ padDigits b x := by
  induction b with
  | zero => intro x; simp [padDigits]
  | succ b ih =>
    intro x
    rw [← Nat.add_assoc, padDigits, ih, padDigits, List.append_assoc,
      Nat.div_div_eq_div_mul, pow_succ, Nat.mul_comm 10]

theorem padDigits_eq_zeros (w : Nat) :
    ∀ x, x < 10 ^ w → padDigits w x = List.replicate w '0' → x = 0 := by
  induction w with
  | zero => intro x hx _; simpa using hx
  | succ w ih =>
    intro x hx h
    rw [padDigits, List.replicate_succ'] at h
    have hlen : (padDigits w (x / 10)).length = (List.replicate w '0').length := by
      simp [padDigits_length]
    obtain ⟨h1, h2⟩ := List.append_inj h hlen
    have hd : digitChar (x % 10) = '0' := by simpa using h2
    have hmod : x % 10 % 10 = 0 := (digitChar_eq_zero _).1 hd
    have hdiv : x / 10 = 0 := ih (x / 10) (by rw [pow_succ] at hx; omega) h1
    omega

theorem Time.trimZeros_le (buf : List Char) (n : Nat) : Time.trimZeros buf n ≤ n := by
  induction n with
  | zero => simp [Time.trimZeros]
  | succ n ih =>
    unfold Time.trimZeros
    split_ifs <;> omega

theorem Time.trimZeros_append (p r : List Char) (n : Nat) (hn : n ≤ p.length) :
    Time.trimZeros (p ++ r) n = Time.trimZeros p n := by
  induction n with
  | zero => rfl
  | succ n ih =>
    have hlt : n < p.length := hn
    have hget : (p ++ r).getD n ' ' = p.getD n ' ' := by
      simp [List.getD_eq_getElem?_getD, List.getElem?_append_left hlt]
    unfold Time.trimZeros
    rw [hget, ih (by omega)]

theorem Time.take_trimZeros (buf : List Char) (n : Nat) (hn : n ≤ buf.length) :
    buf.take n = buf.take (Time.trimZeros buf n)
      ++ List.replicate (n - Time.trimZeros buf n) '0' := by
  induction n with
  | zero => simp [Time.trimZeros]
  | succ n ih =>
    have hlt : n < buf.length := hn
    have hle := Time.trimZeros_le buf n
    unfold Time.trimZeros
    by_cases hz : (buf.getD n ' ' == '0') = true
    · have hc : buf[n] = '0' := by
        simpa [List.getD_eq_getElem?_getD, List.getElem?_eq_getElem hlt] using hz
      rw [if_pos hz, List.take_succ, List.getElem?_eq_getElem hlt, hc, ih (by omega)]
      have : n + 1 - Time.trimZeros buf n = (n - Time.trimZeros buf n) + 1 := by omega
      rw [this, List.replicate_succ']
      simp
    · rw [if_neg hz]
      simp

theorem Time.trimZeros_getLast (buf : List Char) (n : Nat) (hn : n ≤ buf.length)
    (hpos : Time.trimZeros buf n ≠ 0) :
    (buf.take (Time.trimZeros buf n)).getLast? ≠ some '0' := by
  induction n with
  | zero => simp [Time.trimZeros] at hpos
  | succ n ih =>
    have hlt : n < buf.length := hn
    unfold Time.trimZeros at hpos ⊢
    by_cases hz : (buf.getD n ' ' == '0') = true
    · rw [if_pos hz] at hpos ⊢
      exact ih (by omega) hpos
    · rw [if_neg hz]
      have hc : buf[n] ≠ '0' := by
        simpa [List.getD_eq_getElem?_getD, List.getElem?_eq_getElem hlt] using hz
      have hlast : (buf.take (n + 1)).getLast? = some buf[n] := by
        rw [List.take_succ, List.getElem?_eq_getElem hlt]
        exact List.getLast?_concat _
      rw [hlast]
      intro h
      exact hc (Option.some.inj h)

theorem Time.trimZeros_succ_eq (buf : List Char) (n : Nat) :
    Time.trimZeros buf (n + 1) = n + 1 ↔ buf.getD n ' ' ≠ '0' := by
  have hle := Time.trimZeros_le buf n
  unfold Time.trimZeros
  by_cases hz : (buf.getD n ' ' == '0') = true
  · rw [if_pos hz]
    have : buf.getD n ' ' = '0' := by simpa using hz
    constructor
    · intro h; omega
    · intro h; exact absurd this h
  · rw [if_neg hz]
    have : buf.getD n ' ' ≠ '0' := by simpa using hz
    exact ⟨fun _ => this, fun _ => rfl⟩

/-- The fractional part that `.999999` prints, in terms of the microseconds: no
text when they are zero, else a dot and the six digits cut after the last
non-zero one. -/
theorem Time.formatNano_six (nsec : Nat) (h : nsec < 1000000000) :
    Time.formatNano nsec 6 true '.'
      = if Time.trimZeros (padDigits 6 (nsec / 1000)) 6 = 0 then []
        else '.' :: (padDigits 6 (nsec / 1000)).take
              (Time.trimZeros (padDigits 6 (nsec / 1000)) 6) := by
  unfold Time.formatNano
  have hbuf : Time.appendInt (nsec : Int) 9 = padDigits 6 (nsec / 1000) ++ padDigits 3 nsec := by
    rw [Time.appendInt_nat 8 nsec (by norm_num; exact h)]
    exact padDigits_add 6 3 nsec
  have hlen : (padDigits 6 (nsec / 1000)).length = 6 := padDigits_length _ _
  have htrim : Time.trimZeros (padDigits 6 (nsec / 1000) ++ padDigits 3 nsec) 6
      = Time.trimZeros (padDigits 6 (nsec / 1000)) 6 :=
    Time.trimZeros_append _ _ 6 (by omega)
  have hle := Time.trimZeros_le (padDigits 6 (nsec / 1000)) 6
  simp only [hbuf, show ¬ (6 > 9) by decide, if_false, if_true, htrim, Bool.true_and,
    beq_iff_eq]
  split_ifs with hk
  · rfl
  · rw [List.take_append_of_le_length (by omega)]


theorem matchesMask_append (m1 m2 : List Char) :
    ∀ l1 l2, matchesMask m1 l1 = true → matchesMask m2 l2 = true →
      matchesMask (m1 ++ m2) (l1 ++ l2) = true := by
  induction m1 with
  | nil =>
    intro l1 l2 h1 h2
    cases l1 with
    | nil => simpa using h2
    | cons c cs => simp [matchesMask] at h1
  | cons m ms ih =>
    intro l1 l2 h1 h2
    cases l1 with
    | nil => simp [matchesMask] at h1
    | cons c cs =>
      simp only [matchesMask, Bool.and_eq_true] at h1
      simp only [List.cons_append, matchesMask, Bool.and_eq_true]
      exact ⟨h1.1, ih cs l2 h1.2 h2⟩

theorem matchesMask_length (m : List Char) :
    ∀ l, matchesMask m l = true → l.length = m.length := by
  induction m with
  | nil =>
    intro l h
    cases l with
    | nil => rfl
    | cons c cs => simp [matchesMask] at h
  | cons m ms ih =>
    intro l h
    cases l with
    | nil => simp [matchesMask] at h
    | cons c cs =>
      simp only [matchesMask, Bool.and_eq_true] at h
      simp [ih cs h.2]

theorem matchesMask_digits (l : List Char) (h : ∀ c ∈ l, c.isDigit = true) :
    matchesMask (List.replicate l.length 'd') l = true := by
  induction l with
  | nil => rfl
  | cons c cs ih =>
    simp only [List.length_cons, List.replicate_succ, matchesMask, if_true, Bool.and_eq_true]
    exact ⟨h c (List.mem_cons_self _ _), ih (fun x hx => h x (List.mem_cons_of_mem _ hx))⟩

theorem matchesMask_padDigits (w x : Nat) :
    matchesMask (List.replicate w 'd') (padDigits w x) = true := by
  have h := matchesMask_digits (padDigits w x) (padDigits_isDigit w x)
  rwa [padDigits_length] at h

/-- The elements of `FromDateFormat`: year, month, day, hour, minute and second
with the literal text between them, then a six-digit fractional second from
which trailing zeros are trimmed. -/
theorem Time.splitLayout_FromDateFormat :
    Time.splitLayout FromDateFormat
      = [.stdLongYear, .lit "-", .stdZeroMonth, .lit "-", .stdZeroDay, .lit " ",
         .stdHour, .lit ":", .stdZeroMinute, .lit ":", .stdZeroSecond,
         .stdFracSecond9 6 '.'] := by
  decide

/-- The text of `FromDateFormat`: the date and clock fields with their
separators, then the fractional second. -/
theorem Time.Format_FromDateFormat (t : Time) :
    t.Format FromDateFormat
      = String.mk ((Time.appendInt (Time.absDate t.abs).1 4 ++ ['-']
          ++ Time.appendInt (Time.absDate t.abs).2.1 2 ++ ['-']
          ++ Time.appendInt (Time.absDate t.abs).2.2 2 ++ [' ']
          ++ Time.appendInt (Time.absClock t.abs).1 2 ++ [':']
          ++ Time.appendInt (Time.absClock t.abs).2.1 2 ++ [':']
          ++ Time.appendInt (Time.absClock t.abs).2.2 2)
          ++ Time.formatNano t.nsec.val 6 true '.') := by
  simp [Time.Format, Time.splitLayout_FromDateFormat, Time.formatChunk]

/-- With a year in 0..9999 the date and clock fields print as
`YYYY-MM-DD HH:MM:SS`. -/
theorem Time.dateTime_shape (t : Time) (hy0 : 0 ≤ (Time.absDate t.abs).1)
    (hy1 : (Time.absDate t.abs).1 ≤ 9999) :
    matchesMask "dddd-dd-dd dd:dd:dd".data
      (Time.appendInt (Time.absDate t.abs).1 4 ++ ['-']
          ++ Time.appendInt (Time.absDate t.abs).2.1 2 ++ ['-']
          ++ Time.appendInt (Time.absDate t.abs).2.2 2 ++ [' ']
          ++ Time.appendInt (Time.absClock t.abs).1 2 ++ [':']
          ++ Time.appendInt (Time.absClock t.abs).2.1 2 ++ [':']
          ++ Time.appendInt (Time.absClock t.abs).2.2 2) = true := by
  obtain ⟨y, hy⟩ : ∃ y : Nat, (Time.absDate t.abs).1 = (y : Int) :=
    ⟨(Time.absDate t.abs).1.toNat, (Int.toNat_of_nonneg hy0).symm⟩
  have hyb : y < 10 ^ (3 + 1) := by norm_num; omega
  obtain ⟨hm1, hm2, hd1, hd2⟩ := Time.absDate_bounds t.abs
  obtain ⟨hh, hmi, hs⟩ := Time.absClock_bounds t.abs
  rw [hy, Time.appendInt_nat 3 y hyb,
    Time.appendInt_nat 1 (Time.absDate t.abs).2.1 (by norm_num; omega),
    Time.appendInt_nat 1 (Time.absDate t.abs).2.2 (by norm_num; omega),
    Time.appendInt_nat 1 (Time.absClock t.abs).1 (by norm_num; omega),
    Time.appendInt_nat 1 (Time.absClock t.abs).2.1 (by norm_num; omega),
    Time.appendInt_nat 1 (Time.absClock t.abs).2.2 (by norm_num; omega)]
  have hmask : "dddd-dd-dd dd:dd:dd".data
      = List.replicate 4 'd' ++ ['-'] ++ List.replicate 2 'd' ++ ['-']
          ++ List.replicate 2 'd' ++ [' '] ++ List.replicate 2 'd' ++ [':']
          ++ List.replicate 2 'd' ++ [':'] ++ List.replicate 2 'd' := by decide
  rw [hmask]
  have hsep : ∀ c : Char, c ≠ 'd' → matchesMask [c] [c] = true := by
    intro c hc
    simp [matchesMask, hc]
  refine matchesMask_append _ _ _ _ (matchesMask_append _ _ _ _ (matchesMask_append _ _ _ _
    (matchesMask_append _ _ _ _ (matchesMask_append _ _ _ _ (matchesMask_append _ _ _ _
    (matchesMask_append _ _ _ _ (matchesMask_append _ _ _ _ (matchesMask_append _ _ _ _
    (matchesMask_append _ _ _ _ ?_ ?_) ?_) ?_) ?_) ?_) ?_) ?_) ?_) ?_) ?_ <;>
    first
      | exact matchesMask_padDigits _ _
      | exact hsep _ (by decide)


theorem RecentJobsQuery.Values_fromDate (q : RecentJobsQuery) (hset : q.FromDate.IsZero = false) :
    q.Values.lookup "fromDate" = some [q.FromDate.Format FromDateFormat] := by
  unfold RecentJobsQuery.Values
  simp only [UrlValues.lookup_Set]
  simp [hset, apply_ite (fun v => UrlValues.lookup v "fromDate"), UrlValues.lookup_Set]

theorem padDigits_six_last (x : Nat) : (padDigits 6 x).getD 5 ' ' = digitChar (x % 10) := by
  have h : padDigits 6 x = padDigits 5 (x / 10) ++ [digitChar (x % 10)] := rfl
  have hlen : (padDigits 5 (x / 10)).length = 5 := padDigits_length _ _
  rw [h, List.getD_eq_getElem?_getD, List.getElem?_append_right (by omega), hlen]
  rfl

/-! ## What `Values` binds to each key -/

theorem RecentJobsQuery.Values_jobType (q : RecentJobsQuery) :
    q.Values.lookup "jobType" = (if q.JobType = "" then none else some [q.JobType]) := by
  unfold RecentJobsQuery.Values
  simp only [UrlValues.lookup_Set]
  by_cases h : q.JobType = "" <;>
    simp [h, apply_ite (fun v => UrlValues.lookup v "jobType"), UrlValues.lookup_Set,
      UrlValues.lookup_nil]

theorem RecentJobsQuery.Values_orderBy (q : RecentJobsQuery) :
    q.Values.lookup "orderBy" = (if q.OrderBy = "" then none else some [q.OrderBy]) := by
  unfold RecentJobsQuery.Values
  simp only [UrlValues.lookup_Set]
  by_cases h : q.OrderBy = "" <;>
    simp [h, apply_ite (fun v => UrlValues.lookup v "orderBy"), UrlValues.lookup_Set,
      UrlValues.lookup_nil]

theorem RecentJobsQuery.Values_jobStatus (q : RecentJobsQuery) :
    q.Values.lookup "jobStatus" = (if q.JobStatus = "" then none else some [q.JobStatus]) := by
  unfold RecentJobsQuery.Values
  simp only [UrlValues.lookup_Set]
  by_cases h : q.JobStatus = "" <;>
    simp [h, apply_ite (fun v => UrlValues.lookup v "jobStatus"), UrlValues.lookup_Set,
      UrlValues.lookup_nil]

theorem RecentJobsQuery.Values_userId (q : RecentJobsQuery) :
    q.Values.lookup "userId" = (if q.UserID = "" then none else some [q.UserID]) := by
  unfold RecentJobsQuery.Values
  simp only [UrlValues.lookup_Set]
  by_cases h : q.UserID = "" <;>
    simp [h, apply_ite (fun v => UrlValues.lookup v "userId"), UrlValues.lookup_Set,
      UrlValues.lookup_nil]

theorem RecentJobsQuery.Values_userIdLiked (q : RecentJobsQuery) :
    q.Values.lookup "userIdLiked" = (if q.UserIDLiked = "" then none else some [q.UserIDLiked]) := by
  unfold RecentJobsQuery.Values
  simp only [UrlValues.lookup_Set]
  by_cases h : q.UserIDLiked = "" <;>
    simp [h, apply_ite (fun v => UrlValues.lookup v "userIdLiked"), UrlValues.lookup_Set,
      UrlValues.lookup_nil]

theorem RecentJobsQuery.Values_prompt (q : RecentJobsQuery) :
    q.Values.lookup "prompt" = (if q.Prompt = "" then none else some [q.Prompt]) := by
  unfold RecentJobsQuery.Values
  simp only [UrlValues.lookup_Set]
  by_cases h : q.Prompt = "" <;>
    simp [h, apply_ite (fun v => UrlValues.lookup v "prompt"), UrlValues.lookup_Set,
      UrlValues.lookup_nil]

theorem RecentJobsQuery.Values_amount (q : RecentJobsQuery) :
    q.Values.lookup "amount" = (if q.Amount = 0 then none else some [Itoa q.Amount]) := by
  unfold RecentJobsQuery.Values
  simp only [UrlValues.lookup_Set]
  by_cases h : q.Amount = 0 <;>
    simp [h, apply_ite (fun v => UrlValues.lookup v "amount"), UrlValues.lookup_Set,
      UrlValues.lookup_nil]

theorem RecentJobsQuery.Values_page (q : RecentJobsQuery) :
    q.Values.lookup "page" = (if q.Page = 0 then none else some [Itoa q.Page]) := by
  unfold RecentJobsQuery.Values
  simp only [UrlValues.lookup_Set]
  by_cases h : q.Page = 0 <;>
    simp [h, apply_ite (fun v => UrlValues.lookup v "page"), UrlValues.lookup_Set,
      UrlValues.lookup_nil]

theorem RecentJobsQuery.Values_personal (q : RecentJobsQuery) :
    q.Values.lookup "personal" = (if q.Personal = true then some ["true"] else none) := by
  unfold RecentJobsQuery.Values
  simp only [UrlValues.lookup_Set]
  cases h : q.Personal <;>
    simp [apply_ite (fun v => UrlValues.lookup v "personal"), UrlValues.lookup_Set,
      UrlValues.lookup_nil]

theorem RecentJobsQuery.Values_dedupe (q : RecentJobsQuery) :
    q.Values.lookup "dedupe" = (if q.Dedupe = true then some ["true"] else none) := by
  unfold RecentJobsQuery.Values
  simp only [UrlValues.lookup_Set]
  cases h : q.Dedupe <;>
    simp [apply_ite (fun v => UrlValues.lookup v "dedupe"), UrlValues.lookup_Set,
      UrlValues.lookup_nil]

theorem RecentJobsQuery.Values_refreshApi (q : RecentJobsQuery) :
    q.Values.lookup "refreshApi" = some [Itoa q.RefreshAPI] := by
  unfold RecentJobsQuery.Values
  simp only [UrlValues.lookup_Set, if_true]

theorem wrapInt_of_range (x : Int) (hlo : minInt ≤ x) (hhi : x ≤ maxInt) : wrapInt x = x := by
  unfold wrapInt
  unfold minInt at hlo
  unfold maxInt at hhi
  omega

theorem wrapInt_range (x : Int) : minInt ≤ wrapInt x ∧ wrapInt x ≤ maxInt := by
  unfold wrapInt minInt maxInt
  omega

theorem RecentJobsQuery.NextPage_frame (now : Time) (q : RecentJobsQuery) :
    q.NextPage now =
      { q with
        FromDate := if q.OrderBy = OrderNew ∧ q.FromDate.IsZero = true then now.UTC
                    else q.FromDate,
        Page := wrapInt (q.Page + 1) } := by
  unfold RecentJobsQuery.NextPage
  by_cases h1 : q.OrderBy = OrderNew <;> by_cases h2 : q.FromDate.IsZero = true <;>
    by_cases h3 : q.Page = 0 <;> simp [h1, h2, h3]

theorem QueryHeap.load_alloc_old (h : QueryHeap) (x : RecentJobsQuery) (a : Nat)
    (ha : a < h.length) : (h.alloc x).1.load a = h.load a := by
  simp [QueryHeap.load, QueryHeap.alloc, List.getElem?_append_left ha]

theorem QueryHeap.load_alloc_new (h : QueryHeap) (x : RecentJobsQuery) :
    (h.alloc x).1.load (h.alloc x).2 = some x := by
  simp [QueryHeap.load, QueryHeap.alloc]

theorem QueryHeap.load_lt (h : QueryHeap) (p : Nat) (q : RecentJobsQuery)
    (hload : h.load p = some q) : p < h.length := by
  unfold QueryHeap.load at hload
  by_contra hc
  rw [List.get?_eq_none.mpr (by omega)] at hload
  cases hload

/-- A call of RecentJobs whose request is built, whose response has status 200
and whose body decodes: the page it returns and what it did. -/
theorem Client.RecentJobs_success {Job : Type} (L : Lib Job) (D : Decls) (c : Client)
    (now : Time) (q : RecentJobsQuery) (req : Request) (resp : Response) (jobs : List Job)
    (hreq : L.NewRequest "GET" (urlString "app/recent-jobs/" (L.Encode q.Values)) = .ok req)
    (hdo : c.Do req = .ok resp) (hstatus : resp.StatusCode = 200)
    (hdec : L.Decode resp.Body = .ok jobs) :
    Client.RecentJobs L D c now q
      = (.ok { Query := if q.OrderBy = OrderNew ∧ q.FromDate.IsZero = true then
                  { q with FromDate := now.UTC } else q,
               Jobs := jobs, Page := q.Page },
         [.newRequest "GET" (urlString "app/recent-jobs/" (L.Encode q.Values)),
          .dispatch req, .decode resp.Body, .close resp.Body]) := by
  by_cases h1 : q.OrderBy = OrderNew <;> by_cases h2 : q.FromDate.IsZero = true <;>
    simp [Client.RecentJobs, hreq, hdo, hstatus, hdec, StatusOK, h1, h2]

/-! ## Reading decimal digits back -/

theorem digitChar_toNat (d : Nat) : (digitChar d).toNat - 48 = d % 10 := by
  have h : d % 10 < 10 := Nat.mod_lt _ (by decide)
  unfold digitChar
  generalize d % 10 = k at h
  interval_cases k <;> decide

theorem digitsVal_concat (cs : List Char) (c : Char) :
    digitsVal (cs ++ [c]) = digitsVal cs * 10 + (c.toNat - 48) := by
  simp [digitsVal, List.foldl_append]

theorem digitsVal_decDigits (u : Nat) : digitsVal (decDigits u) = u := by
  induction u using Nat.strong_induction_on with
  | _ u ih =>
    by_cases h : u < 10
    · rw [decDigits_lt_ten u h]
      have := digitChar_toNat u
      simp only [digitsVal, List.foldl_cons, List.foldl_nil, this]
      omega
    · rw [decDigits_ge_ten u (by omega), digitsVal_concat, ih (u / 10) (by omega),
        digitChar_toNat]
      omega

theorem decDigits_isDigit (u : Nat) : ∀ c ∈ decDigits u, c.isDigit = true := by
  induction u using Nat.strong_induction_on with
  | _ u ih =>
    intro c hc
    by_cases h : u < 10
    · rw [decDigits_lt_ten u h] at hc
      rw [List.mem_singleton.1 hc]
      exact digitChar_isDigit _
    · rw [decDigits_ge_ten u (by omega)] at hc
      rcases List.mem_append.1 hc with hc | hc
      · exact ih (u / 10) (by omega) c hc
      · rw [List.mem_singleton.1 hc]
        exact digitChar_isDigit _

theorem decDigits_injective (u v : Nat) (h : decDigits u = decDigits v) : u = v := by
  rw [← digitsVal_decDigits u, ← digitsVal_decDigits v, h]

/-- The decimal string determines the integer. -/
theorem Itoa_injective (a b : Int) (h : Itoa a = Itoa b) : a = b := by
  unfold Itoa at h
  have hl := congrArg String.data h
  simp only at hl
  have hminus : ∀ u : Nat, ∀ cs, '-' :: cs ≠ decDigits u := by
    intro u cs hc
    have := decDigits_isDigit u '-' (by rw [← hc]; exact List.mem_cons_self _ _)
    exact absurd this (by decide)
  by_cases ha : a < 0 <;> by_cases hb : b < 0
  · simp only [ha, hb, if_true, List.singleton_append, List.cons.injEq, true_and] at hl
    have := decDigits_injective _ _ hl
    omega
  · simp only [ha, hb, if_true, if_false, List.singleton_append, List.nil_append] at hl
    exact absurd hl (hminus _ _)
  · simp only [ha, hb, if_true, if_false, List.singleton_append, List.nil_append] at hl
    exact absurd hl.symm (hminus _ _)
  · simp only [ha, hb, if_false, List.nil_append] at hl
    have := decDigits_injective _ _ hl
    omega

theorem optional_string_inj (a b : String)
    (h : (if a = "" then none else some [a]) = (if b = "" then none else some [b])) :
    a = b := by
  by_cases ha : a = "" <;> by_cases hb : b = "" <;> simp_all

theorem optional_int_inj (a b : Int)
    (h : (if a = 0 then none else some [Itoa a]) = (if b = 0 then none else some [Itoa b])) :
    a = b := by
  by_cases ha : a = 0 <;> by_cases hb : b = 0
  · rw [ha, hb]
  · simp [ha, hb] at h
  · simp [ha, hb] at h
  · simp only [ha, hb, if_false, Option.some.injEq, List.cons.injEq, and_true] at h
    exact Itoa_injective a b h

theorem optional_flag_inj (a b : Bool)
    (h : (if a = true then some ["true"] else none) = (if b = true then some ["true"] else none)) :
    a = b := by
  cases a <;> cases b <;> simp_all

theorem decDigits_zero : decDigits 0 = ['0'] := by decide

theorem decDigits_head_ne_zero (u : Nat) (hu : u ≠ 0) : (decDigits u).head? ≠ some '0' := by
  induction u using Nat.strong_induction_on with
  | _ u ih =>
    by_cases h : u < 10
    · rw [decDigits_lt_ten u h]
      simp only [List.head?_cons, ne_eq, Option.some.injEq, digitChar_eq_zero]
      omega
    · rw [decDigits_ge_ten u (by omega)]
      have hpos := decDigits_length_pos (u / 10)
      cases hd : decDigits (u / 10) with
      | nil => rw [hd] at hpos; simp at hpos
      | cons c cs =>
        have := ih (u / 10) (by omega) (by omega)
        rw [hd] at this
        simpa using this

/-- The text of `strconv.Itoa` is the decimal string of its argument. -/
theorem Itoa_isDecimalOf (i : Int) : isDecimalOf (Itoa i) i = true := by
  have hpos := decDigits_length_pos i.natAbs
  have hne : (decDigits i.natAbs).isEmpty = false := by
    cases hd : decDigits i.natAbs with
    | nil => rw [hd] at hpos; simp at hpos
    | cons c cs => rfl
  have hall : (decDigits i.natAbs).all Char.isDigit = true :=
    List.all_eq_true.2 (decDigits_isDigit i.natAbs)
  have hval : (digitsVal (decDigits i.natAbs) == i.natAbs) = true := by
    rw [digitsVal_decDigits]
    exact beq_self_eq_true _
  have hlead : ((decDigits i.natAbs).length == 1
      || (decDigits i.natAbs).head? != some '0') = true := by
    by_cases h0 : i.natAbs = 0
    · rw [h0, decDigits_zero]
      rfl
    · have := decDigits_head_ne_zero i.natAbs h0
      simp [this]
  unfold isDecimalOf Itoa
  by_cases hneg : i < 0
  · simp only [hneg, if_true, List.singleton_append, List.drop_succ_cons, List.drop_zero,
      List.head?_cons, beq_self_eq_true, hne, Bool.not_false, hall, hlead, hval, Bool.and_self]
  · simp only [hneg, if_false, List.nil_append, hne, Bool.not_false, hall, hlead, hval,
      Bool.and_self]

/-! ## Lemmas on parsing -/

theorem digitsVal_padDigits (w : Nat) : ∀ x, x < 10 ^ w → digitsVal (padDigits w x) = x := by
  induction w with
  | zero => intro x hx; simp at hx; subst hx; rfl
  | succ w ih =>
    intro x hx
    have hdiv : x / 10 < 10 ^ w := by rw [pow_succ] at hx; omega
    rw [padDigits, digitsVal_concat, ih _ hdiv, digitChar_toNat]
    omega

theorem digitsVal_zeros (cs : List Char) (m : Nat) :
    digitsVal (cs ++ List.replicate m '0') = digitsVal cs * 10 ^ m := by
  induction m with
  | zero => simp
  | succ m ih =>
    rw [List.replicate_succ', ← List.append_assoc, digitsVal_concat, ih, pow_succ]
    have : ('0' : Char).toNat - 48 = 0 := by decide
    rw [this, Nat.mul_assoc]
    rfl

theorem foldl_digit_ge (cs : List Char) :
    ∀ x : Nat, x ≤ cs.foldl (fun acc c => acc * 10 + (c.toNat - 48)) x := by
  induction cs with
  | nil => intro x; exact Nat.le_refl _
  | cons c cs ih =>
    intro x
    simp only [List.foldl_cons]
    exact Nat.le_trans (by omega) (ih _)

/-- On a text of digits whose number fits, `leadingInt` returns that number and
no rest. -/
theorem Time.leadingInt_digits (cs : List Char) :
    ∀ x : Nat, (∀ c ∈ cs, c.isDigit = true) →
      cs.foldl (fun acc c => acc * 10 + (c.toNat - 48)) x ≤ 9223372036854775808 →
      Time.leadingInt x cs = some (cs.foldl (fun acc c => acc * 10 + (c.toNat - 48)) x, []) := by
  induction cs with
  | nil => intro x _ _; rfl
  | cons c cs ih =>
    intro x hd hb
    simp only [List.foldl_cons] at hb ⊢
    have hc : c.isDigit = true := hd c (List.mem_cons_self _ _)
    have hge := foldl_digit_ge cs (x * 10 + (c.toNat - 48))
    have h1 : ¬ (x > 9223372036854775808 / 10) := by omega
    have h2 : ¬ (x * 10 + (c.toNat - 48) > 9223372036854775808) := by omega
    simp only [Time.leadingInt, hc, Bool.not_true, Bool.false_eq_true, if_false, h1, h2]
    exact ih _ (fun d hd2 => hd d (List.mem_cons_of_mem _ hd2)) hb

theorem Time.atoi_digits (cs : List Char) (hd : ∀ c ∈ cs, c.isDigit = true)
    (hb : digitsVal cs < 9223372036854775808) :
    Time.atoi cs = some (digitsVal cs : Int) := by
  have hhead1 : (cs.head? == some '-') = false := by
    cases cs with
    | nil => rfl
    | cons c cs =>
      have hc := hd c (List.mem_cons_self _ _)
      simp only [List.head?_cons, beq_eq_false_iff_ne, ne_eq, Option.some.injEq]
      intro h; rw [h] at hc; exact absurd hc (by decide)
  have hhead2 : (cs.head? == some '+') = false := by
    cases cs with
    | nil => rfl
    | cons c cs =>
      have hc := hd c (List.mem_cons_self _ _)
      simp only [List.head?_cons, beq_eq_false_iff_ne, ne_eq, Option.some.injEq]
      intro h; rw [h] at hc; exact absurd hc (by decide)
  have hl : Time.leadingInt 0 cs = some (digitsVal cs, []) :=
    Time.leadingInt_digits cs 0 hd (by unfold digitsVal at hb; omega)
  have hw : wrapInt (digitsVal cs : Int) = (digitsVal cs : Int) := by
    unfold wrapInt
    omega
  unfold Time.atoi
  simp only [hhead1, hhead2, Bool.or_self, Bool.false_eq_true, if_false, hl, hw]

theorem padDigits_two (x : Nat) :
    padDigits 2 x = [digitChar (x / 10 % 10), digitChar (x % 10)] := by
  simp [padDigits]

/-- Reading back a two-digit field. -/
theorem Time.getnum_padDigits (x : Nat) (hx : x < 100) (v : List Char) ( fixed : Bool) :
    Time.getnum (padDigits 2 x ++ v) fixed = some ((x : Int), v) := by
  rw [padDigits_two]
  have h0 := digitChar_isDigit (x / 10 % 10)
  have h1 := digitChar_isDigit (x % 10)
  have e0 := digitChar_toNat (x / 10 % 10)
  have e1 := digitChar_toNat (x % 10)
  simp only [Time.getnum, Time.isDigitAt, List.cons_append, List.nil_append, List.get?_cons_zero,
    List.get?_cons_succ, h0, h1, Bool.not_true, Bool.false_eq_true, if_false, List.getD_cons_zero,
    List.getD_cons_succ, e0, e1, List.drop_succ_cons, List.drop_zero]
  congr 2
  omega

theorem Time.skip_nil (v : List Char) : Time.skip v [] = some v := by
  cases v <;> rfl

theorem Time.skip_char (c : Char) (hc : c ≠ ' ') (v : List Char) :
    Time.skip (c :: v) [c] = some v := by
  have h1 : (c == ' ') = false := by simpa using hc
  simp only [Time.skip, List.length_singleton, Time.skipAux, h1, Bool.false_eq_true, if_false,
    bne_self_eq_false]

theorem Time.skip_space (d : Char) (hd : d.isDigit = true) (v : List Char) :
    Time.skip (' ' :: d :: v) [' '] = some (d :: v) := by
  have h1 : (d == ' ') = false := by
    rw [beq_eq_false_iff_ne]
    intro h; rw [h] at hd; exact absurd hd (by decide)
  simp [Time.skip, Time.skipAux, Time.cutspace, List.dropWhile, h1]

/-! ## Lemmas on the calendar round trip -/

theorem Time.absDate_eq (a : Nat) :
    Time.absDate a
      = ((Time.absYearDay a).1,
          Time.monthDayOf (Time.isLeap (Time.absYearDay a).1) (Time.absYearDay a).2) := by
  unfold Time.absDate Time.absYearDay Time.monthDayOf Time.monthTable
  simp only []
  split_ifs <;> rfl

/-- The arithmetic of the cycle cuts. -/
theorem Time.cycles_arith (d0 n1 d1 n2 c d2 n3 d3 n4 e d4 : Nat)
    (hn1 : d0 / 146097 = n1) (hd1 : d0 - 146097 * n1 = d1)
    (hn2 : d1 / 36524 = n2) (hc : n2 - n2 / 4 = c) (hd2 : d1 - 36524 * c = d2)
    (hn3 : d2 / 1461 = n3) (hd3 : d2 - 1461 * n3 = d3)
    (hn4 : d3 / 365 = n4) (he : n4 - n4 / 4 = e) (hd4 : d3 - 365 * e = d4) :
    c ≤ 3 ∧ n3 ≤ 24 ∧ e ≤ 3 ∧ d4 ≤ 365 ∧
      d0 = 146097 * n1 + 36524 * c + 1461 * n3 + 365 * e + d4 ∧
      (d4 = 365 → e = 3 ∧ (n3 ≤ 23 ∨ (n3 = 24 ∧ c = 3))) := by
  have hd1lt : d1 < 146097 := by omega
  have hn2le : n2 ≤ 4 := by omega
  have hcle : c ≤ 3 := by omega
  have e1 : d0 = 146097 * n1 + d1 := by omega
  have e2 : d1 = 36524 * c + d2 := by omega
  clear hn1 hd1
  have hd2le : d2 ≤ 36524 := by omega
  have hd2c : c ≤ 2 → d2 < 36524 := by omega
  clear hn2 hc hd2
  have hn3le : n3 ≤ 24 := by omega
  have e3 : d2 = 1461 * n3 + d3 := by omega
  have hd3le : d3 ≤ 1460 := by omega
  clear hn3 hd3
  have hn4le : n4 ≤ 4 := by omega
  have hele : e ≤ 3 := by omega
  have e4 : d3 = 365 * e + d4 := by omega
  have hd4le : d4 ≤ 365 := by omega
  have h365 : d4 = 365 → e = 3 ∧ d3 = 1460 := by omega
  clear hn4 he hd4
  refine ⟨hcle, hn3le, hele, hd4le, by omega, ?_⟩
  intro h
  obtain ⟨h1, h2⟩ := h365 h
  refine ⟨h1, ?_⟩
  omega

/-- The days before a year, from the year's position in its cycles. -/
theorem Time.daysSinceEpoch_cycles (n1 c n3 e : Nat) (hc : c ≤ 3) (hn3 : n3 ≤ 24) (he : e ≤ 3)
    (hn1 : n1 ≤ 1461394257) :
    Time.daysSinceEpoch (((400 * n1 + 100 * c + 4 * n3 + e : Nat) : Int) + Time.absoluteZeroYear)
      = 146097 * n1 + 36524 * c + 1461 * n3 + 365 * e := by
  unfold Time.daysSinceEpoch
  simp only [show Time.daysPer400Years = 146097 from rfl,
    show Time.daysPer100Years = 36524 from rfl, show Time.daysPer4Years = 1461 from rfl,
    show Time.absoluteZeroYear = -292277022399 from rfl]
  generalize hY : 400 * n1 + 100 * c + 4 * n3 + e = Y
  have hcast : (((Y : Int) + -292277022399 - -292277022399) % 18446744073709551616).toNat = Y := by
    omega
  rw [hcast]
  have hq1 : Y / 400 = n1 := by omega
  rw [hq1]
  have hr1 : Y - 400 * n1 = 100 * c + 4 * n3 + e := by omega
  rw [hr1]
  have hq2 : (100 * c + 4 * n3 + e) / 100 = c := by omega
  rw [hq2]
  have hr2 : 100 * c + 4 * n3 + e - 100 * c = 4 * n3 + e := by omega
  rw [hr2]
  have hq3 : (4 * n3 + e) / 4 = n3 := by omega
  rw [hq3]
  have hr3 : 4 * n3 + e - 4 * n3 = e := by omega
  rw [hr3]

theorem Time.isLeap_cycles (n1 c n3 : Nat) (hc : c ≤ 3)
    (h : n3 ≤ 23 ∨ (n3 = 24 ∧ c = 3)) :
    Time.isLeap (((400 * n1 + 100 * c + 4 * n3 + 3 : Nat) : Int) + Time.absoluteZeroYear)
      = true := by
  rw [Time.isLeap_iff]
  simp only [show Time.absoluteZeroYear = -292277022399 from rfl]
  rcases h with h | ⟨h1, h2⟩
  · omega
  · subst h1 h2
    omega

/-- The year and day of the year of an absolute time: the day count splits into
the days before the year and the day of the year, which is below 365, or 365
in a leap year. -/
theorem Time.absYearDay_spec (a : Nat) (ha : a < 18446744073709551616) :
    (Time.absYearDay a).2 ≤ 365 ∧
      ((Time.absYearDay a).2 = 365 → Time.isLeap (Time.absYearDay a).1 = true) ∧
      Time.daysSinceEpoch (Time.absYearDay a).1 + (Time.absYearDay a).2 = a / 86400 := by
  have hd0 : a / 86400 ≤ 213503982334601 := by omega
  unfold Time.absYearDay
  simp only [show Time.secondsPerDay = 86400 from rfl,
    show Time.daysPer400Years = 146097 from rfl, show Time.daysPer100Years = 36524 from rfl,
    show Time.daysPer4Years = 1461 from rfl]
  generalize a / 86400 = d0 at hd0 ⊢
  generalize hn1 : d0 / 146097 = n1
  generalize hd1 : d0 - 146097 * n1 = d1
  generalize hn2 : d1 / 36524 = n2
  generalize hc : n2 - n2 / 4 = c
  generalize hd2 : d1 - 36524 * c = d2
  generalize hn3 : d2 / 1461 = n3
  generalize hd3 : d2 - 1461 * n3 = d3
  generalize hn4 : d3 / 365 = n4
  generalize he : n4 - n4 / 4 = e
  generalize hd4 : d3 - 365 * e = d4
  obtain ⟨hcle, hn3le, hele, hd4le, hsum, h365⟩ :=
    Time.cycles_arith d0 n1 d1 n2 c d2 n3 d3 n4 e d4 hn1 hd1 hn2 hc hd2 hn3 hd3 hn4 he hd4
  have hn1le : n1 ≤ 1461394257 := by omega
  refine ⟨hd4le, ?_, ?_⟩
  · intro h
    obtain ⟨he3, hk⟩ := h365 h
    subst he3
    exact Time.isLeap_cycles n1 c n3 hcle hk
  · rw [Time.daysSinceEpoch_cycles n1 c n3 e hcle hn3le hele hn1le]
    omega

/-- The table lookup of `absDate` on a day of the year with the leap day
removed: the month found starts at or before the day and the next month after
it. -/
theorem Time.monthTable_spec (day : Nat) (h : day ≤ 364) :
    (Time.monthTable day).1 ≤ 11 ∧
      (Time.monthTable day).2 = Time.daysBefore.getD (Time.monthTable day).1 0 ∧
      Time.daysBefore.getD (Time.monthTable day).1 0 ≤ day ∧
      day < Time.daysBefore.getD ((Time.monthTable day).1 + 1) 0 ∧
      (2 ≤ (Time.monthTable day).1 ↔ 59 ≤ day) ∧
      ((Time.monthTable day).1 = 1 →
        Time.daysBefore.getD ((Time.monthTable day).1 + 1) 0 = 59 ∧
          Time.daysBefore.getD (Time.monthTable day).1 0 = 31) := by
  unfold Time.monthTable
  simp only []
  generalize hm : day / 31 = m
  have hm11 : m ≤ 11 := by omega
  interval_cases m <;> simp [Time.daysBefore] <;> split_ifs <;> simp <;> omega

/-- The month and day of the month of a day of the year: the day is within its
month, and the days before the month, the leap day if passed, and the day of the
month add up to the day of the year. -/
theorem Time.monthDayOf_spec (leap : Bool) (yday : Nat) (h : yday ≤ 365)
    (hl : yday = 365 → leap = true) :
    1 ≤ (Time.monthDayOf leap yday).1 ∧ (Time.monthDayOf leap yday).1 ≤ 12 ∧
      1 ≤ (Time.monthDayOf leap yday).2 ∧
      (Time.monthDayOf leap yday).2
        ≤ (if (Time.monthDayOf leap yday).1 = 2 ∧ leap = true then 29
           else Time.daysBefore.getD (Time.monthDayOf leap yday).1 0
              - Time.daysBefore.getD ((Time.monthDayOf leap yday).1 - 1) 0) ∧
      Time.daysBefore.getD ((Time.monthDayOf leap yday).1 - 1) 0
          + (if leap = true ∧ 3 ≤ (Time.monthDayOf leap yday).1 then 1 else 0)
          + ((Time.monthDayOf leap yday).2 - 1) = yday := by
  unfold Time.monthDayOf
  cases leap
  · have hy : yday ≤ 364 := by
      by_contra hc
      have := hl (by omega)
      cases this
    obtain ⟨h1, h2, h3, h4, -, -⟩ := Time.monthTable_spec yday hy
    simp only [Bool.false_and, Bool.false_eq_true, if_false, and_false, false_and,
      Nat.add_sub_cancel, Nat.add_zero]
    generalize Time.monthTable yday = mb at h1 h2 h3 h4 ⊢
    omega
  · by_cases h59 : yday = 59
    · subst h59
      simp [Time.daysBefore]
    · have hb : (yday == 31 + 29 - 1) = false := by simpa using h59
      simp only [Bool.true_and, hb, Bool.false_eq_true, if_false, decide_eq_true_eq, and_true,
        true_and, Nat.add_sub_cancel]
      by_cases hgt : yday > 31 + 29 - 1
      · obtain ⟨h1, h2, h3, h4, h5, -⟩ := Time.monthTable_spec (yday - 1) (by omega)
        simp only [hgt, if_true]
        generalize Time.monthTable (yday - 1) = mb at h1 h2 h3 h4 h5 ⊢
        have hm : 2 ≤ mb.1 := h5.2 (by omega)
        have hne : ¬ (mb.1 + 1 = 2) := by omega
        have hge : 3 ≤ mb.1 + 1 := by omega
        simp only [hne, if_false, hge, if_true]
        omega
      · obtain ⟨h1, h2, h3, h4, h5, h6⟩ := Time.monthTable_spec yday (by omega)
        simp only [hgt, if_false]
        generalize Time.monthTable yday = mb at h1 h2 h3 h4 h5 h6 ⊢
        have hm : ¬ (2 ≤ mb.1) := fun hc => by have := h5.1 hc; omega
        have hge : ¬ (3 ≤ mb.1 + 1) := by omega
        simp only [hge, if_false]
        by_cases hm1 : mb.1 = 1
        · obtain ⟨h7, h8⟩ := h6 hm1
          simp only [hm1] at h2 h3 h4 h7 h8 ⊢
          simp only [if_true]
          omega
        · have hne : ¬ (mb.1 + 1 = 2) := by omega
          simp only [hne, if_false]
          omega


theorem Time.ext_fields (t u : Time) (h1 : t.sec = u.sec) (h2 : t.nsec.val = u.nsec.val)
    (h3 : t.offset = u.offset) : t = u := by
  cases t
  cases u
  simp only [Time.mk.injEq]
  exact ⟨h1, Fin.ext h2, h3⟩

theorem Time.norm_id (hi lo base : Int) (h0 : 0 ≤ lo) (h1 : lo < base) :
    Time.norm hi lo base = (hi, lo) := by
  unfold Time.norm
  have hn : ¬ (lo < 0) := by omega
  simp only [hn, if_false, sub_zero, zero_mul, add_zero]
  have hb : ¬ (lo ≥ base) := by omega
  simp only [hb, if_false, add_zero, zero_mul, sub_zero]

/-- Go's `Date` on fields that are in range: nothing is carried over. -/
theorem Time.Date_in_range (y : Int) (M D h mi s ns : Nat) (hM1 : 1 ≤ M) (hM2 : M ≤ 12)
    (hh : h ≤ 23) (hmi : mi ≤ 59) (hs : s ≤ 59) (hns : ns < 1000000000) :
    Time.Date y M D h mi s ns
      = { sec := wrapInt
            ((((Time.daysSinceEpoch y : Int) + (Time.daysBefore.getD (M - 1) 0 : Int)
                + (if Time.isLeap y = true ∧ 3 ≤ M then 1 else 0) + ((D : Int) - 1)) * 86400
              + ((h : Int) * 3600 + (mi : Int) * 60 + (s : Int))) % 18446744073709551616
              - Time.internalToAbsolute),
          nsec := ⟨ns, hns⟩,
          offset := 0 } := by
  have hn1 := Time.norm_id y ((M : Int) - 1) 12 (by omega) (by omega)
  have hn2 := Time.norm_id (s : Int) (ns : Int) 1000000000 (by omega) (by omega)
  have hn3 := Time.norm_id (mi : Int) (s : Int) 60 (by omega) (by omega)
  have hn4 := Time.norm_id (h : Int) (mi : Int) 60 (by omega) (by omega)
  have hn5 := Time.norm_id (D : Int) (h : Int) 24 (by omega) (by omega)
  have htn : ((M : Int) - 1 + 1 - 1).toNat = M - 1 := by omega
  have hge : ((M : Int) - 1 + 1 ≥ 3) ↔ 3 ≤ M := by omega
  have hnsec : ((ns : Int) % 1000000000).toNat = ns := by omega
  apply Time.ext_fields
  · unfold Time.Date
    simp only [hn1, hn2, hn3, hn4, hn5, htn]
    congr 3
    by_cases hl : Time.isLeap y = true <;> by_cases hm : 3 ≤ M <;> simp [hl, hm, hge]
  · unfold Time.Date
    simp only [hn2, hnsec]
  · rfl

/-! ## Lemmas on parsing the elements of `FromDateFormat` -/

theorem padDigits_head_isDigit (w x : Nat) (v : List Char) :
    Time.isDigitAt (padDigits (w + 1) x ++ v) 0 = true := by
  have hlen : (padDigits (w + 1) x).length = w + 1 := padDigits_length _ _
  cases hp : padDigits (w + 1) x with
  | nil => rw [hp] at hlen; simp at hlen
  | cons c cs =>
    have hc : c.isDigit = true := padDigits_isDigit (w + 1) x c (by rw [hp]; exact List.mem_cons_self _ _)
    simp [Time.isDigitAt, hc]

theorem Time.parseChunk_year (y : Nat) (hy : y < 10000) (rest : List Time.Chunk)
    (f : Time.Fields) (v : List Char) :
    Time.parseChunk .stdLongYear rest f (padDigits 4 y ++ v)
      = some ({ f with year := (y : Int) }, v) := by
  have hlen : (padDigits 4 y).length = 4 := padDigits_length _ _
  have h0 := padDigits_head_isDigit 3 y v
  have htake : (padDigits 4 y ++ v).take 4 = padDigits 4 y := by
    rw [List.take_append_of_le_length (by omega), List.take_of_length_le (by omega)]
  have hdrop : (padDigits 4 y ++ v).drop 4 = v := by
    have h := List.drop_left (padDigits 4 y) v
    rwa [hlen] at h
  have hval : digitsVal (padDigits 4 y) = y := digitsVal_padDigits 4 y (by norm_num; omega)
  have hatoi := Time.atoi_digits (padDigits 4 y) (padDigits_isDigit 4 y) (by rw [hval]; omega)
  rw [hval] at hatoi
  have hl : ¬ ((padDigits 4 y ++ v).length < 4) := by
    rw [List.length_append, hlen]; omega
  simp only [Time.parseChunk, hl, decide_False, h0, Bool.not_true, Bool.or_self,
    Bool.false_eq_true, if_false, htake, hatoi, hdrop]

theorem Time.parseChunk_month (m : Nat) (h1 : 1 ≤ m) (h2 : m ≤ 12) (rest : List Time.Chunk)
    (f : Time.Fields) (v : List Char) :
    Time.parseChunk .stdZeroMonth rest f (padDigits 2 m ++ v)
      = some ({ f with month := (m : Int) }, v) := by
  have hr : ¬ ((m : Int) ≤ 0) ∧ ¬ (12 < (m : Int)) := by omega
  simp [Time.parseChunk, Time.getnum_padDigits m (by omega) v true, hr.1, hr.2]

theorem Time.parseChunk_day (d : Nat) (h2 : d ≤ 31) (rest : List Time.Chunk)
    (f : Time.Fields) (v : List Char) :
    Time.parseChunk .stdZeroDay rest f (padDigits 2 d ++ v)
      = some ({ f with day := (d : Int) }, v) := by
  simp [Time.parseChunk, Time.getnum_padDigits d (by omega) v true]

theorem Time.parseChunk_hour (h : Nat) (h2 : h ≤ 23) (rest : List Time.Chunk)
    (f : Time.Fields) (v : List Char) :
    Time.parseChunk .stdHour rest f (padDigits 2 h ++ v)
      = some ({ f with hour := (h : Int) }, v) := by
  have hr : ¬ ((h : Int) < 0) ∧ ¬ (24 ≤ (h : Int)) := by omega
  simp [Time.parseChunk, Time.getnum_padDigits h (by omega) v false, hr.1, hr.2]

theorem Time.parseChunk_minute (m : Nat) (h2 : m ≤ 59) (rest : List Time.Chunk)
    (f : Time.Fields) (v : List Char) :
    Time.parseChunk .stdZeroMinute rest f (padDigits 2 m ++ v)
      = some ({ f with min := (m : Int) }, v) := by
  have hr : ¬ ((m : Int) < 0) ∧ ¬ (60 ≤ (m : Int)) := by omega
  simp [Time.parseChunk, Time.getnum_padDigits m (by omega) v true, hr.1, hr.2]

/-- Reading the seconds when the fractional second comes next in the layout:
whatever follows the two digits is left for the next element. -/
theorem Time.parseChunk_second (s : Nat) (h2 : s ≤ 59) (n : Nat) (dot : Char)
    (f : Time.Fields) (v : List Char) :
    Time.parseChunk .stdZeroSecond [.stdFracSecond9 n dot] f (padDigits 2 s ++ v)
      = some ({ f with sec := (s : Int) }, v) := by
  have hr : ¬ ((s : Int) < 0) ∧ ¬ (60 ≤ (s : Int)) := by omega
  simp only [Time.parseChunk, Time.getnum_padDigits s (by omega) v true, hr.1, hr.2,
    decide_False, Bool.or_self, Bool.false_eq_true, if_false, Time.nextStd]
  split_ifs <;> rfl


theorem Time.parseChunk_frac_nil (n : Nat) (dot : Char) (rest : List Time.Chunk)
    (f : Time.Fields) :
    Time.parseChunk (.stdFracSecond9 n dot) rest f [] = some (f, []) := by
  simp [Time.parseChunk]

/-- Reading a fractional second of up to nine digits. -/
theorem Time.parseChunk_frac_digits (ds : List Char) (hne : ds ≠ [])
    (hd : ∀ c ∈ ds, c.isDigit = true) (hlen : ds.length ≤ 9)
    (hb : digitsVal ds < 9223372036854775808) (n : Nat) (rest : List Time.Chunk)
    (f : Time.Fields) :
    Time.parseChunk (.stdFracSecond9 n '.') rest f ('.' :: ds)
      = some ({ f with nsec := (digitsVal ds : Int) * 10 ^ (9 - ds.length) }, []) := by
  obtain ⟨c, cs, rfl⟩ : ∃ c cs, ds = c :: cs := by
    cases ds with
    | nil => exact absurd rfl hne
    | cons c cs => exact ⟨c, cs, rfl⟩
  have hc : c.isDigit = true := hd c (List.mem_cons_self _ _)
  have htw : List.takeWhile Char.isDigit (c :: cs) = c :: cs :=
    List.takeWhile_eq_self_iff.2 hd
  have hatoi := Time.atoi_digits (c :: cs) hd hb
  have hl2 : ¬ (('.' :: c :: cs).length < 2) := by simp
  have hnb : ¬ (1 + (c :: cs).length > 10) := by omega
  have htake : (List.take (1 + (c :: cs).length) ('.' :: c :: cs)).drop 1 = c :: cs := by
    rw [List.take_of_length_le (by simp; omega)]
    rfl
  have hdrop : List.drop (1 + (c :: cs).length) ('.' :: c :: cs) = [] := by
    rw [List.drop_eq_nil_iff]
    simp
    omega
  have hnn : ¬ ((digitsVal (c :: cs) : Int) < 0) := by omega
  have hsub : 10 - (1 + (c :: cs).length) = 9 - (c :: cs).length := by omega
  simp only [Time.parseChunk, hl2, decide_False, Time.commaOrPeriod, List.getD_cons_zero,
    beq_self_eq_true, Bool.true_or, Bool.not_true, Time.isDigitAt, List.get?_cons_succ,
    List.get?_cons_zero, hc, Bool.or_self, Bool.false_eq_true, if_false, List.drop_succ_cons,
    List.drop_zero, htw, Time.parseNanoseconds, hnb, htake, hatoi, hnn, hdrop, hsub]


theorem Time.skip_space_padDigits (x : Nat) (v : List Char) :
    Time.skip (' ' :: (padDigits 2 x ++ v)) [' '] = some (padDigits 2 x ++ v) := by
  rw [padDigits_two]
  exact Time.skip_space _ (digitChar_isDigit _) _

/-- Parsing a text laid out as `FromDateFormat` prints it: the six fields are
read back, and the fractional second is whatever its element reads. -/
theorem Time.parseChunks_FromDateFormat (y M D h mi s : Nat) (hy : y < 10000)
    (hM1 : 1 ≤ M) (hM2 : M ≤ 12) (hD : D ≤ 31) (hh : h ≤ 23) (hmi : mi ≤ 59) (hs : s ≤ 59)
    (frac : List Char) (F : Time.Fields)
    (hfrac : Time.parseChunk (.stdFracSecond9 6 '.') []
        { year := y, month := M, day := D, hour := h, min := mi, sec := s, nsec := 0 } frac
      = some (F, [])) :
    Time.parseChunks (Time.splitLayout FromDateFormat) []
        { year := 0, month := -1, day := -1, hour := 0, min := 0, sec := 0, nsec := 0 }
        (padDigits 4 y ++ ('-' :: (padDigits 2 M ++ ('-' :: (padDigits 2 D ++ (' ' ::
          (padDigits 2 h ++ (':' :: (padDigits 2 mi ++ (':' :: (padDigits 2 s ++ frac)))))))))))
      = some F := by
  rw [Time.splitLayout_FromDateFormat]
  simp only [Time.parseChunks, Time.skip_nil, Time.parseChunk_year y hy, List.nil_append,
    show "-".data = ['-'] from rfl, show " ".data = [' '] from rfl,
    show ":".data = [':'] from rfl,
    Time.skip_char '-' (by decide), Time.skip_char ':' (by decide),
    Time.parseChunk_month M hM1 hM2, Time.parseChunk_day D hD, Time.skip_space_padDigits,
    Time.parseChunk_hour h hh, Time.parseChunk_minute mi hmi, Time.parseChunk_second s hs,
    hfrac, List.isEmpty_nil, if_true]


theorem Time.absClock_sum (a : Nat) :
    (Time.absClock a).1 * 3600 + (Time.absClock a).2.1 * 60 + (Time.absClock a).2.2
      = a % 86400 := by
  unfold Time.absClock
  simp only [show Time.secondsPerDay = 86400 from rfl]
  omega

/-- The date and clock fields of an absolute time denote it: the day is a day of
its month, and Go's `Date` on the fields gives the time back. -/
theorem Time.Date_absDate (a ns : Nat) (ha : a < 18446744073709551616)
    (hns : ns < 1000000000) :
    1 ≤ (Time.absDate a).2.1 ∧ (Time.absDate a).2.1 ≤ 12 ∧ 1 ≤ (Time.absDate a).2.2 ∧
      ((Time.absDate a).2.2 : Int)
        ≤ Time.daysIn ((Time.absDate a).2.1 : Int) (Time.absDate a).1 ∧
      Time.Date (Time.absDate a).1 (Time.absDate a).2.1 (Time.absDate a).2.2
          (Time.absClock a).1 (Time.absClock a).2.1 (Time.absClock a).2.2 ns
        = { sec := wrapInt ((a : Int) - Time.internalToAbsolute), nsec := ⟨ns, hns⟩,
            offset := 0 } := by
  obtain ⟨hyd, hleap, hsum⟩ := Time.absYearDay_spec a ha
  obtain ⟨hh, hmi, hs⟩ := Time.absClock_bounds a
  have hclock := Time.absClock_sum a
  rw [Time.absDate_eq]
  simp only []
  generalize (Time.absYearDay a).1 = y at hleap hsum ⊢
  generalize (Time.absYearDay a).2 = yd at hyd hleap hsum ⊢
  obtain ⟨hM1, hM2, hD1, hDle, hmd⟩ := Time.monthDayOf_spec (Time.isLeap y) yd hyd hleap
  generalize Time.monthDayOf (Time.isLeap y) yd = md at hM1 hM2 hD1 hDle hmd ⊢
  obtain ⟨M, D⟩ := md
  simp only [] at hM1 hM2 hD1 hDle hmd ⊢
  refine ⟨hM1, hM2, hD1, ?_, ?_⟩
  · unfold Time.daysIn
    have e1 : ((M : Int)).toNat = M := by omega
    have e2 : ((M : Int) - 1).toNat = M - 1 := by omega
    rw [e1, e2]
    by_cases hm2 : M = 2
    · subst hm2
      cases hl : Time.isLeap y
      · simp only [hl, Bool.false_eq_true, and_false, if_false] at hDle
        simp only [Nat.cast_ofNat, beq_self_eq_true, Bool.and_false, Bool.false_eq_true,
          if_false]
        omega
      · simp only [hl, and_self, if_true] at hDle
        simp only [Nat.cast_ofNat, beq_self_eq_true, Bool.and_self, if_true]
        omega
    · have hne : ((M : Int) == 2) = false := by
        rw [beq_eq_false_iff_ne]
        omega
      simp only [hm2, false_and, if_false] at hDle
      simp only [hne, Bool.false_and, Bool.false_eq_true, if_false]
      omega
  · rw [Time.Date_in_range y M D _ _ _ ns hM1 hM2 hh hmi hs hns]
    congr 2
    have hday : (Time.daysSinceEpoch y : Int) + (Time.daysBefore.getD (M - 1) 0 : Int)
        + (if Time.isLeap y = true ∧ 3 ≤ M then 1 else 0) + ((D : Int) - 1)
        = ((a / 86400 : Nat) : Int) := by
      rw [← hsum, ← hmd]
      by_cases hc : Time.isLeap y = true ∧ 3 ≤ M
      · simp only [hc, and_self, if_true]
        push_cast
        omega
      · simp only [hc, if_false]
        push_cast
        omega
    rw [hday]
    have hcl : ((Time.absClock a).1 : Int) * 3600 + ((Time.absClock a).2.1 : Int) * 60
        + ((Time.absClock a).2.2 : Int) = ((a % 86400 : Nat) : Int) := by
      rw [← hclock]
      push_cast
      rfl
    rw [hcl]
    omega


/-- Reading back the fractional second that `.999999` prints gives the
nanoseconds cut to whole microseconds. -/
theorem Time.parse_formatNano (nsec : Nat) (h : nsec < 1000000000) (f : Time.Fields)
    (hf : f.nsec = 0) (rest : List Time.Chunk) :
    Time.parseChunk (.stdFracSecond9 6 '.') rest f (Time.formatNano nsec 6 true '.')
      = some ({ f with nsec := ((nsec - nsec % 1000 : Nat) : Int) }, []) := by
  rw [Time.formatNano_six nsec h]
  generalize hmicro : nsec / 1000 = micro
  have hmlt : micro < 10 ^ 6 := by norm_num; omega
  have hPlen : (padDigits 6 micro).length = 6 := padDigits_length _ _
  have hk6 := Time.trimZeros_le (padDigits 6 micro) 6
  have htake := Time.take_trimZeros (padDigits 6 micro) 6 (by omega)
  rw [List.take_of_length_le (by omega)] at htake
  have hval : digitsVal (padDigits 6 micro) = micro := digitsVal_padDigits 6 micro hmlt
  generalize hk : Time.trimZeros (padDigits 6 micro) 6 = k at hk6 htake
  by_cases hk0 : k = 0
  · subst hk0
    have hm0 : micro = 0 := padDigits_eq_zeros 6 micro hmlt (by simpa using htake)
    have hz : nsec - nsec % 1000 = 0 := by omega
    rw [if_pos rfl, Time.parseChunk_frac_nil, hz]
    cases f
    simp only at hf
    subst hf
    rfl
  · rw [if_neg hk0]
    have hdlen : ((padDigits 6 micro).take k).length = k := by
      rw [List.length_take, hPlen]; omega
    have hne : (padDigits 6 micro).take k ≠ [] := by
      intro hnil
      rw [hnil] at hdlen
      simp at hdlen
      omega
    have hdig : ∀ c ∈ (padDigits 6 micro).take k, c.isDigit = true :=
      fun c hc => padDigits_isDigit 6 micro c (List.mem_of_mem_take hc)
    have hv : digitsVal ((padDigits 6 micro).take k) * 10 ^ (6 - k) = micro := by
      rw [← digitsVal_zeros, ← htake, hval]
    have hpos : 0 < 10 ^ (6 - k) := Nat.pos_pow_of_pos _ (by decide)
    have hle : digitsVal ((padDigits 6 micro).take k) ≤ micro := by
      calc digitsVal ((padDigits 6 micro).take k)
          = digitsVal ((padDigits 6 micro).take k) * 1 := (Nat.mul_one _).symm
        _ ≤ digitsVal ((padDigits 6 micro).take k) * 10 ^ (6 - k) :=
            Nat.mul_le_mul_left _ hpos
        _ = micro := hv
    rw [Time.parseChunk_frac_digits _ hne hdig (by omega) (by norm_num at hmlt; omega), hdlen]
    have hpow : 10 ^ (9 - k) = 10 ^ (6 - k) * 1000 := by
      have : 9 - k = (6 - k) + 3 := by omega
      rw [this, pow_add]
      norm_num
    have hns : digitsVal ((padDigits 6 micro).take k) * 10 ^ (9 - k) = nsec - nsec % 1000 := by
      rw [hpow, ← Nat.mul_assoc, hv]
      omega
    have hcast : (digitsVal ((padDigits 6 micro).take k) : Int) * 10 ^ (9 - k)
        = ((nsec - nsec % 1000 : Nat) : Int) := by
      rw [← hns]
      push_cast
      rfl
    rw [hcast]

/-! ## The claims -/

/-- C1 (the code at the claim's input): for every query whose Page is 0, the
query returned by NextPage has Page 1, not 2: the assignment of page 1 to the
copy is overwritten by the receiver's page plus one. -/
theorem C1_NextPage_unset_page_is_one (now : Time) (q : RecentJobsQuery) (h : q.Page = 0) :
    (q.NextPage now).Page = 1 ∧ (q.NextPage now).Page ≠ 2 := by
  rw [RecentJobsQuery.NextPage_Page, h]
  decide

/-- C1 at the zero-value query. -/
theorem C1_NextPage_unset_page_is_one_witness :
    RecentJobsQuery.empty.Page = 0 ∧
      ((RecentJobsQuery.empty.NextPage sampleNow).Page = 1 ∧
        (RecentJobsQuery.empty.NextPage sampleNow).Page ≠ 2) :=
  ⟨rfl, C1_NextPage_unset_page_is_one sampleNow RecentJobsQuery.empty rfl⟩

/-- C2: for a query ordered by `new` with no cursor, NextPage at a non-zero
clock reading stamps the cursor with that reading (in UTC), and NextPage on the
result, at any clock reading, leaves the cursor as stamped. -/
theorem C2_NextPage_pins_cursor (q : RecentJobsQuery) (now later : Time)
    (hnew : q.OrderBy = OrderNew) (hunset : q.FromDate.IsZero = true)
    (hclock : now.IsZero = false) :
    (q.NextPage now).FromDate = now.UTC ∧
      ((q.NextPage now).NextPage later).FromDate = now.UTC := by
  have h1 : (q.NextPage now).FromDate = now.UTC := by
    rw [RecentJobsQuery.NextPage_FromDate]; simp [hnew, hunset]
  refine ⟨h1, ?_⟩
  rw [RecentJobsQuery.NextPage_FromDate, h1, Time.IsZero_UTC, hclock]
  simp only [Bool.false_eq_true, and_false, if_false]

/-- C2 at a `new`-ordered query without cursor and two clock readings. -/
theorem C2_NextPage_pins_cursor_witness :
    (({ RecentJobsQuery.empty with OrderBy := OrderNew }).NextPage sampleNow).FromDate
        = sampleNow.UTC ∧
      ((({ RecentJobsQuery.empty with OrderBy := OrderNew }).NextPage sampleNow).NextPage
          { sec := 63900090000, nsec := 5, offset := 0 }).FromDate = sampleNow.UTC :=
  C2_NextPage_pins_cursor { RecentJobsQuery.empty with OrderBy := OrderNew } sampleNow
    { sec := 63900090000, nsec := 5, offset := 0 } rfl rfl rfl

/-- C3: for every query, Values binds the key refreshApi to exactly one value,
and that value is the decimal string of RefreshAPI (a minus sign for a negative
number, then its digits without leading zeros); with RefreshAPI 0 the value is
"0", with 7 it is "7", with -12 it is "-12". -/
theorem C3_refreshApi_always_present (q : RecentJobsQuery) :
    (∃ s : String, q.Values.lookup "refreshApi" = some [s] ∧
        isDecimalOf s q.RefreshAPI = true) ∧
      q.Values.lookup "refreshApi" = some [Itoa q.RefreshAPI] ∧
      ({ q with RefreshAPI := 0 }).Values.lookup "refreshApi" = some ["0"] ∧
      ({ q with RefreshAPI := 7 }).Values.lookup "refreshApi" = some ["7"] ∧
      ({ q with RefreshAPI := -12 }).Values.lookup "refreshApi" = some ["-12"] := by
  refine ⟨⟨Itoa q.RefreshAPI, RecentJobsQuery.Values_refreshApi q, Itoa_isDecimalOf _⟩,
    RecentJobsQuery.Values_refreshApi q, ?_, ?_, ?_⟩
  · rw [RecentJobsQuery.Values_refreshApi]
    rfl
  · rw [RecentJobsQuery.Values_refreshApi]
    show some [Itoa 7] = some ["7"]
    decide
  · rw [RecentJobsQuery.Values_refreshApi]
    show some [Itoa (-12)] = some ["-12"]
    decide

/-- C4 (as stated, refuted): the zero-value query does not serialize to a map
with no keys. -/
theorem C4_empty_query_not_empty_values :
    ¬ (RecentJobsQuery.empty.Values = []) := by decide

/-- C4 (amended): the zero-value query serializes to exactly one parameter,
refreshApi with the single value "0". -/
theorem C4_empty_query_values :
    RecentJobsQuery.empty.Values = [("refreshApi", ["0"])] := by decide

/-- C5 (amended): for every query whose FromDate is set and falls in a year
0..9999, the fromDate parameter is `YYYY-MM-DD HH:MM:SS` followed by the
fractional second with its trailing zeros removed: nothing at all when the
microseconds are zero, otherwise a dot and the six microsecond digits cut after
the last non-zero one.  The text has between 19 and 26 characters, and 26
exactly when the microsecond count does not end in zero. -/
theorem C5_fromDate_text (q : RecentJobsQuery) (hset : q.FromDate.IsZero = false)
    (hy0 : 0 ≤ q.FromDate.Year) (hy1 : q.FromDate.Year ≤ 9999) :
    ∃ body frac : List Char,
      q.Values.lookup "fromDate" = some [String.mk (body ++ frac)] ∧
      matchesMask "dddd-dd-dd dd:dd:dd".data body = true ∧
      (q.FromDate.nsec.val / 1000 = 0 → frac = []) ∧
      (q.FromDate.nsec.val / 1000 ≠ 0 →
        ∃ ds : List Char, frac = '.' :: ds ∧ ds ≠ [] ∧ ds.length ≤ 6 ∧
          ds.getLast? ≠ some '0' ∧
          ds ++ List.replicate (6 - ds.length) '0' = padDigits 6 (q.FromDate.nsec.val / 1000)) ∧
      ((String.mk (body ++ frac)).length = 26 ↔ (q.FromDate.nsec.val / 1000) % 10 ≠ 0) ∧
      19 ≤ (String.mk (body ++ frac)).length ∧ (String.mk (body ++ frac)).length ≤ 26 := by
  have hns : q.FromDate.nsec.val < 1000000000 := q.FromDate.nsec.isLt
  generalize hmicro : q.FromDate.nsec.val / 1000 = micro
  have hmlt : micro < 10 ^ 6 := by norm_num; omega
  have hshape := Time.dateTime_shape q.FromDate hy0 hy1
  have hblen := matchesMask_length _ _ hshape
  have hfrac := Time.formatNano_six q.FromDate.nsec.val hns
  rw [hmicro] at hfrac
  have hPlen : (padDigits 6 micro).length = 6 := padDigits_length _ _
  have hk6 := Time.trimZeros_le (padDigits 6 micro) 6
  have htake := Time.take_trimZeros (padDigits 6 micro) 6 (by omega)
  rw [List.take_of_length_le (by omega)] at htake
  have hk0 : Time.trimZeros (padDigits 6 micro) 6 = 0 ↔ micro = 0 := by
    constructor
    · intro h0
      rw [h0] at htake
      exact padDigits_eq_zeros 6 micro hmlt (by simpa using htake)
    · intro h0
      rw [h0]
      decide
  have hk26 : Time.trimZeros (padDigits 6 micro) 6 = 6 ↔ micro % 10 ≠ 0 := by
    rw [Time.trimZeros_succ_eq (padDigits 6 micro) 5, padDigits_six_last, Ne,
      digitChar_eq_zero]
    simp
  refine ⟨_, Time.formatNano q.FromDate.nsec.val 6 true '.', ?_, hshape, ?_, ?_, ?_⟩
  · rw [RecentJobsQuery.Values_fromDate q hset, Time.Format_FromDateFormat]
  · intro h0
    rw [hfrac, if_pos (hk0.2 h0)]
  · intro h0
    have hkne : Time.trimZeros (padDigits 6 micro) 6 ≠ 0 := fun h => h0 (hk0.1 h)
    refine ⟨(padDigits 6 micro).take (Time.trimZeros (padDigits 6 micro) 6), ?_, ?_, ?_, ?_, ?_⟩
    · rw [hfrac, if_neg hkne]
    · intro hnil
      have := congrArg List.length hnil
      rw [List.length_take, hPlen] at this
      simp at this
      omega
    · rw [List.length_take, hPlen]; omega
    · exact Time.trimZeros_getLast _ 6 (by omega) hkne
    · rw [List.length_take, hPlen, Nat.min_eq_left hk6]
      exact htake.symm
  · have hlen : (String.mk ((Time.appendInt (Time.absDate q.FromDate.abs).1 4 ++ ['-']
          ++ Time.appendInt (Time.absDate q.FromDate.abs).2.1 2 ++ ['-']
          ++ Time.appendInt (Time.absDate q.FromDate.abs).2.2 2 ++ [' ']
          ++ Time.appendInt (Time.absClock q.FromDate.abs).1 2 ++ [':']
          ++ Time.appendInt (Time.absClock q.FromDate.abs).2.1 2 ++ [':']
          ++ Time.appendInt (Time.absClock q.FromDate.abs).2.2 2)
          ++ Time.formatNano q.FromDate.nsec.val 6 true '.')).length
        = 19 + (if Time.trimZeros (padDigits 6 micro) 6 = 0 then 0
                else 1 + Time.trimZeros (padDigits 6 micro) 6) := by
      rw [String.length_mk, List.length_append, hblen, hfrac]
      have h19 : "dddd-dd-dd dd:dd:dd".data.length = 19 := by decide
      rw [h19]
      split_ifs with hk
      · rfl
      · rw [List.length_cons, List.length_take, hPlen, Nat.min_eq_left hk6]
        omega
    rw [hlen]
    refine ⟨?_, ?_, ?_⟩
    · rw [← hk26]
      split_ifs with hk <;> omega
    · omega
    · split_ifs with hk <;> omega

/-- C5 at a cursor of 2025-11-30 07:59:59.1234 UTC: the text ends in `.1234`. -/
theorem C5_fromDate_text_witness :
    ∃ body frac : List Char,
      ({ RecentJobsQuery.empty with FromDate := sampleNow }).Values.lookup "fromDate"
        = some [String.mk (body ++ frac)] ∧
      matchesMask "dddd-dd-dd dd:dd:dd".data body = true ∧
      (sampleNow.nsec.val / 1000 = 0 → frac = []) ∧
      (sampleNow.nsec.val / 1000 ≠ 0 →
        ∃ ds : List Char, frac = '.' :: ds ∧ ds ≠ [] ∧ ds.length ≤ 6 ∧
          ds.getLast? ≠ some '0' ∧
          ds ++ List.replicate (6 - ds.length) '0' = padDigits 6 (sampleNow.nsec.val / 1000)) ∧
      ((String.mk (body ++ frac)).length = 26 ↔ (sampleNow.nsec.val / 1000) % 10 ≠ 0) ∧
      19 ≤ (String.mk (body ++ frac)).length ∧ (String.mk (body ++ frac)).length ≤ 26 :=
  C5_fromDate_text { RecentJobsQuery.empty with FromDate := sampleNow }
    (by decide) (by decide) (by decide)

/-- C5 (as stated, refuted): a whole-second cursor serializes to 19 characters
with no fractional part, and a cursor of 120000 microseconds to 22 characters
ending in `.12`; a cursor in the year 10000 has a five-digit year.  None of the
three texts has 26 characters. -/
theorem C5_fromDate_not_fixed_width :
    ({ RecentJobsQuery.empty with FromDate := wholeSecond }).Values.lookup "fromDate"
        = some ["2025-11-30 07:59:59"] ∧
      ¬ ("2025-11-30 07:59:59".length = 26) ∧
      ({ RecentJobsQuery.empty with FromDate := hundredths }).Values.lookup "fromDate"
        = some ["2025-11-30 07:59:59.12"] ∧
      ¬ ("2025-11-30 07:59:59.12".length = 26) ∧
      ({ RecentJobsQuery.empty with FromDate := farFuture }).Values.lookup "fromDate"
        = some ["10000-01-01 00:00:00.123456"] ∧
      ¬ ("10000-01-01 00:00:00.123456".length = 26) := by
  decide

/-- C6: for a query ordered by `new` with no cursor, a RecentJobs call whose
request is built, whose response has status 200 and whose body decodes returns
a page holding the decoded jobs whose Query.FromDate is the clock reading taken
before dispatch (in UTC); with a non-zero clock reading it is non-zero. -/
theorem C6_RecentJobs_backfills_cursor {Job : Type} (L : Lib Job) (D : Decls) (c : Client)
    (now : Time) (q : RecentJobsQuery) (req : Request) (resp : Response) (jobs : List Job)
    (hnew : q.OrderBy = OrderNew) (hunset : q.FromDate.IsZero = true)
    (hreq : L.NewRequest "GET" (urlString "app/recent-jobs/" (L.Encode q.Values)) = .ok req)
    (hdo : c.Do req = .ok resp) (hstatus : resp.StatusCode = 200)
    (hdec : L.Decode resp.Body = .ok jobs) (hclock : now.IsZero = false) :
    ∃ page : RecentJobs Job,
      (Client.RecentJobs L D c now q).1 = .ok page ∧ page.Jobs = jobs ∧
        page.Query.FromDate = now.UTC ∧ page.Query.FromDate.IsZero = false := by
  refine ⟨{ Query := { q with FromDate := now.UTC }, Jobs := jobs, Page := q.Page }, ?_, rfl, rfl, ?_⟩
  · simp [Client.RecentJobs, hreq, hdo, hstatus, hdec, StatusOK, hnew, hunset]
  · simpa [Time.IsZero_UTC] using hclock

/-- C6 at the query `OrderBy = new`, a transport answering 200 with an empty
array, and a sample clock reading. -/
theorem C6_RecentJobs_backfills_cursor_witness :
    ∃ page : RecentJobs String,
      (Client.RecentJobs sampleLib sampleDecls okClient sampleNow newQuery).1 = .ok page ∧
        page.Jobs = [] ∧ page.Query.FromDate = sampleNow.UTC ∧
        page.Query.FromDate.IsZero = false :=
  C6_RecentJobs_backfills_cursor sampleLib sampleDecls okClient sampleNow
    newQuery
    { Method := "GET", URL := urlString "app/recent-jobs/" (sampleLib.Encode newQuery.Values) }
    { StatusCode := 200, Status := "200 OK", Body := "[]" } [] rfl rfl rfl rfl rfl rfl rfl

/-- C7: when RecentJobs returns a page, the page's Query agrees with the input
query on every field other than FromDate, and on FromDate too (so the two are
equal) when the input's FromDate is set or its OrderBy is not `new`. -/
theorem C7_RecentJobs_query_frame {Job : Type} (L : Lib Job) (D : Decls) (c : Client)
    (now : Time) (q : RecentJobsQuery) (page : RecentJobs Job)
    (hok : (Client.RecentJobs L D c now q).1 = .ok page) :
    ((q.FromDate.IsZero = false ∨ q.OrderBy ≠ OrderNew) → page.Query = q) ∧
      { page.Query with FromDate := q.FromDate } = q := by
  obtain ⟨req, resp, jobs, -, -, -, -, hpage⟩ := Client.RecentJobs_ok L D c now q page hok
  subst hpage
  constructor
  · intro hcond
    have hno : ¬ (q.OrderBy = OrderNew ∧ q.FromDate.IsZero = true) := by
      rintro ⟨h1, h2⟩
      rcases hcond with hset | hord
      · rw [h2] at hset; cases hset
      · exact hord h1
    simp only [hno, if_false]
  · by_cases hc : q.OrderBy = OrderNew ∧ q.FromDate.IsZero = true
    · rw [if_pos hc]
    · rw [if_neg hc]

/-- C7 at two successful calls: one in the backfill case, where only FromDate
differs, and one on a query ordered by `hot`, returned unchanged. -/
theorem C7_RecentJobs_query_frame_witness :
    (((newQuery.FromDate.IsZero = false ∨ newQuery.OrderBy ≠ OrderNew) →
        (samplePage sampleNow.UTC).Query = newQuery) ∧
      { (samplePage sampleNow.UTC).Query with FromDate := newQuery.FromDate } = newQuery) ∧
    (((hotQuery.FromDate.IsZero = false ∨ hotQuery.OrderBy ≠ OrderNew) →
        ({ Query := hotQuery, Jobs := [], Page := 0 } : RecentJobs String).Query = hotQuery) ∧
      { ({ Query := hotQuery, Jobs := [], Page := 0 } : RecentJobs String).Query with
          FromDate := hotQuery.FromDate } = hotQuery) :=
  ⟨C7_RecentJobs_query_frame sampleLib sampleDecls okClient sampleNow newQuery
      (samplePage sampleNow.UTC) rfl,
   C7_RecentJobs_query_frame sampleLib sampleDecls okClient sampleNow hotQuery
      { Query := hotQuery, Jobs := [], Page := 0 } rfl⟩

/-- C8: for every query, when the request is built and the transport answers
with a status code other than 200, RecentJobs returns no page but the error
`ErrResponseStatus: <status text>`, which wraps ErrResponseStatus and whose
text contains the response's status text; the call builds and dispatches the
request and closes the body, and decodes nothing. -/
theorem C8_RecentJobs_status_error {Job : Type} (L : Lib Job) (D : Decls) (c : Client)
    (now : Time) (q : RecentJobsQuery) (req : Request) (resp : Response)
    (hreq : L.NewRequest "GET" (urlString "app/recent-jobs/" (L.Encode q.Values)) = .ok req)
    (hdo : c.Do req = .ok resp) (hstatus : resp.StatusCode ≠ 200) :
    Client.RecentJobs L D c now q
        = (.error (GoError.Errorf D.ErrResponseStatus resp.Status),
            [.newRequest "GET" (urlString "app/recent-jobs/" (L.Encode q.Values)),
             .dispatch req, .close resp.Body]) ∧
      (GoError.Errorf D.ErrResponseStatus resp.Status).Is D.ErrResponseStatus = true ∧
      (GoError.Errorf D.ErrResponseStatus resp.Status).Error
        = D.ErrResponseStatus.Error ++ ": " ++ resp.Status ∧
      (∃ pre post : String,
        (GoError.Errorf D.ErrResponseStatus resp.Status).Error = pre ++ resp.Status ++ post) ∧
      ∀ body, Event.decode body ∉ (Client.RecentJobs L D c now q).2 := by
  have hcall : Client.RecentJobs L D c now q
        = (.error (GoError.Errorf D.ErrResponseStatus resp.Status),
            [.newRequest "GET" (urlString "app/recent-jobs/" (L.Encode q.Values)),
             .dispatch req, .close resp.Body]) := by
    simp [Client.RecentJobs, hreq, hdo, hstatus, StatusOK]
  refine ⟨hcall, GoError.Errorf_Is _ _, rfl, ⟨D.ErrResponseStatus.Error ++ ": ", "", ?_⟩, ?_⟩
  · simp [GoError.Errorf, GoError.Error]
  · intro body
    rw [hcall]
    simp

/-- C8 at a transport answering `503 Service Unavailable`. -/
theorem C8_RecentJobs_status_error_witness :
    Client.RecentJobs sampleLib sampleDecls unavailableClient sampleNow newQuery
        = (.error (GoError.Errorf sampleDecls.ErrResponseStatus "503 Service Unavailable"),
            [.newRequest "GET" (urlString "app/recent-jobs/" (sampleLib.Encode newQuery.Values)),
             .dispatch { Method := "GET",
                         URL := urlString "app/recent-jobs/" (sampleLib.Encode newQuery.Values) },
             .close ""]) ∧
      (GoError.Errorf sampleDecls.ErrResponseStatus "503 Service Unavailable").Is
          sampleDecls.ErrResponseStatus = true ∧
      (GoError.Errorf sampleDecls.ErrResponseStatus "503 Service Unavailable").Error
        = sampleDecls.ErrResponseStatus.Error ++ ": " ++ "503 Service Unavailable" ∧
      (∃ pre post : String,
        (GoError.Errorf sampleDecls.ErrResponseStatus "503 Service Unavailable").Error
          = pre ++ "503 Service Unavailable" ++ post) ∧
      ∀ body, Event.decode body ∉
        (Client.RecentJobs sampleLib sampleDecls unavailableClient sampleNow newQuery).2 :=
  C8_RecentJobs_status_error sampleLib sampleDecls unavailableClient sampleNow newQuery
    { Method := "GET", URL := urlString "app/recent-jobs/" (sampleLib.Encode newQuery.Values) }
    { StatusCode := 503, Status := "503 Service Unavailable", Body := "" } rfl rfl (by decide)

/-- C9: Home and Bookmarks called with the empty user id return the error
ErrUserIDRequired and no page, having built, dispatched and decoded nothing;
with a non-empty user id they pass the check: the call is the RecentJobs call
on the preset's query, which at least attempts to build a request. -/
theorem C9_presets_require_user_id {Job : Type} (L : Lib Job) (D : Decls) (c : Client)
    (now : Time) :
    Client.Home L D c now "" = (.error (ErrUserIDRequired D), []) ∧
      Client.Bookmarks L D c now "" = (.error (ErrUserIDRequired D), []) ∧
      (∀ u : String, u ≠ "" →
        Client.Home L D c now u
            = Client.RecentJobs L D c now
                { RecentJobsQuery.empty with
                  Amount := 50, JobType := D.JobTypeNull, OrderBy := OrderNew,
                  JobStatus := D.JobStatusCompleted, UserID := u, Dedupe := true } ∧
          (Client.Home L D c now u).2 ≠ []) ∧
      (∀ u : String, u ≠ "" →
        Client.Bookmarks L D c now u
            = Client.RecentJobs L D c now
                { RecentJobsQuery.empty with
                  Amount := 50, JobType := D.JobTypeNull, OrderBy := OrderLikedTime,
                  JobStatus := D.JobStatusCompleted, UserIDLiked := u, Dedupe := true } ∧
          (Client.Bookmarks L D c now u).2 ≠ []) := by
  refine ⟨rfl, rfl, ?_, ?_⟩
  · intro u hu
    have h : Client.Home L D c now u
        = Client.RecentJobs L D c now
            { RecentJobsQuery.empty with
              Amount := 50, JobType := D.JobTypeNull, OrderBy := OrderNew,
              JobStatus := D.JobStatusCompleted, UserID := u, Dedupe := true } := by
      simp [Client.Home, hu]
    exact ⟨h, by rw [h]; exact Client.RecentJobs_trace_ne_nil _ _ _ _ _⟩
  · intro u hu
    have h : Client.Bookmarks L D c now u
        = Client.RecentJobs L D c now
            { RecentJobsQuery.empty with
              Amount := 50, JobType := D.JobTypeNull, OrderBy := OrderLikedTime,
              JobStatus := D.JobStatusCompleted, UserIDLiked := u, Dedupe := true } := by
      simp [Client.Bookmarks, hu]
    exact ⟨h, by rw [h]; exact Client.RecentJobs_trace_ne_nil _ _ _ _ _⟩

/-- C10: for every query, Values has the key amount iff Amount is non-zero and
the key page iff Page is non-zero, and a key that is present is bound to a single
value, the decimal string of its integer (a minus sign for a negative number,
then its digits without leading zeros): Amount 50 gives "50", Page -3 gives
"-3". -/
theorem C10_amount_page_omitted_when_zero (q : RecentJobsQuery) :
    (q.Values.Has "amount" = true ↔ q.Amount ≠ 0) ∧
      (q.Values.Has "page" = true ↔ q.Page ≠ 0) ∧
      q.Values.lookup "amount" = (if q.Amount = 0 then none else some [Itoa q.Amount]) ∧
      q.Values.lookup "page" = (if q.Page = 0 then none else some [Itoa q.Page]) ∧
      (∀ vs, q.Values.lookup "amount" = some vs →
        ∃ s : String, vs = [s] ∧ isDecimalOf s q.Amount = true) ∧
      (∀ vs, q.Values.lookup "page" = some vs →
        ∃ s : String, vs = [s] ∧ isDecimalOf s q.Page = true) ∧
      ({ q with Amount := 50 }).Values.lookup "amount" = some ["50"] ∧
      ({ q with Page := -3 }).Values.lookup "page" = some ["-3"] := by
  have ha := RecentJobsQuery.Values_amount q
  have hp := RecentJobsQuery.Values_page q
  refine ⟨?_, ?_, ha, hp, ?_, ?_, ?_, ?_⟩
  · unfold UrlValues.Has
    rw [ha]
    by_cases h : q.Amount = 0 <;> simp [h]
  · unfold UrlValues.Has
    rw [hp]
    by_cases h : q.Page = 0 <;> simp [h]
  · intro vs hvs
    rw [ha] at hvs
    by_cases h : q.Amount = 0
    · simp [h] at hvs
    · simp only [h, if_false, Option.some.injEq] at hvs
      exact ⟨Itoa q.Amount, hvs.symm, Itoa_isDecimalOf _⟩
  · intro vs hvs
    rw [hp] at hvs
    by_cases h : q.Page = 0
    · simp [h] at hvs
    · simp only [h, if_false, Option.some.injEq] at hvs
      exact ⟨Itoa q.Page, hvs.symm, Itoa_isDecimalOf _⟩
  · rw [RecentJobsQuery.Values_amount]
    show (if (50 : Int) = 0 then none else some [Itoa 50]) = some ["50"]
    decide
  · rw [RecentJobsQuery.Values_page]
    show (if (-3 : Int) = 0 then none else some [Itoa (-3)]) = some ["-3"]
    decide

/-- C11: for every query, Values has the key personal iff Personal is true and
the key dedupe iff Dedupe is true; a key that is present is bound to the single
value "true", and neither key is ever bound to "false". -/
theorem C11_personal_dedupe_presence_only (q : RecentJobsQuery) :
    (q.Values.Has "personal" = true ↔ q.Personal = true) ∧
      (q.Values.Has "dedupe" = true ↔ q.Dedupe = true) ∧
      q.Values.lookup "personal" = (if q.Personal = true then some ["true"] else none) ∧
      q.Values.lookup "dedupe" = (if q.Dedupe = true then some ["true"] else none) ∧
      (∀ vs, q.Values.lookup "personal" = some vs → "false" ∉ vs) ∧
      (∀ vs, q.Values.lookup "dedupe" = some vs → "false" ∉ vs) := by
  have hp := RecentJobsQuery.Values_personal q
  have hd := RecentJobsQuery.Values_dedupe q
  refine ⟨?_, ?_, hp, hd, ?_, ?_⟩
  · unfold UrlValues.Has
    rw [hp]
    cases q.Personal <;> simp
  · unfold UrlValues.Has
    rw [hd]
    cases q.Dedupe <;> simp
  · intro vs h
    rw [hp] at h
    cases hq : q.Personal
    · simp [hq] at h
    · simp only [hq, if_true, Option.some.injEq] at h
      subst h
      decide
  · intro vs h
    rw [hd] at h
    cases hq : q.Dedupe
    · simp [hq] at h
    · simp only [hq, if_true, Option.some.injEq] at h
      subst h
      decide

/-- C12 (as stated, refuted): from the page before the largest `int`, the
second NextPage wraps around to the smallest `int` instead of adding one. -/
theorem C12_second_advance_wraps :
    ((nextToLastPageQuery.NextPage sampleNow).NextPage sampleNow).Page = minInt ∧
      (nextToLastPageQuery.NextPage sampleNow).Page + 1 = 9223372036854775808 ∧
      ¬ (((nextToLastPageQuery.NextPage sampleNow).NextPage sampleNow).Page
          = (nextToLastPageQuery.NextPage sampleNow).Page + 1) := by
  decide

/-- C12 (amended): for every query q, NextPage(NextPage(q)).Page is
NextPage(q).Page + 1 computed in Go's 64-bit `int` arithmetic: an `int` that
differs from NextPage(q).Page + 1 by a multiple of 2^64.  It is
NextPage(q).Page + 1 exactly unless NextPage(q).Page is the largest `int`, and
then it is the smallest `int`. -/
theorem C12_second_advance_adds_one (q : RecentJobsQuery) (now later : Time) :
    ((q.NextPage now).NextPage later).Page = wrapInt ((q.NextPage now).Page + 1) ∧
      (minInt ≤ ((q.NextPage now).NextPage later).Page ∧
        ((q.NextPage now).NextPage later).Page ≤ maxInt ∧
        (((q.NextPage now).NextPage later).Page - ((q.NextPage now).Page + 1))
          % 18446744073709551616 = 0) ∧
      ((q.NextPage now).Page ≠ maxInt →
        ((q.NextPage now).NextPage later).Page = (q.NextPage now).Page + 1) ∧
      ((q.NextPage now).Page = maxInt →
        ((q.NextPage now).NextPage later).Page = minInt) := by
  have h1 : ((q.NextPage now).NextPage later).Page = wrapInt ((q.NextPage now).Page + 1) :=
    RecentJobsQuery.NextPage_Page later (q.NextPage now)
  have hr : minInt ≤ (q.NextPage now).Page ∧ (q.NextPage now).Page ≤ maxInt := by
    rw [RecentJobsQuery.NextPage_Page]
    exact wrapInt_range _
  refine ⟨h1, ⟨?_, ?_, ?_⟩, ?_, ?_⟩
  · rw [h1]
    exact (wrapInt_range _).1
  · rw [h1]
    exact (wrapInt_range _).2
  · rw [h1]
    unfold wrapInt
    omega
  · intro hmax
    rw [h1]
    apply wrapInt_of_range
    · unfold minInt at hr ⊢; omega
    · have : (q.NextPage now).Page < maxInt := lt_of_le_of_ne hr.2 hmax
      omega
  · intro hmax
    rw [h1, hmax]
    decide

/-- C12 at a query on page 3 (pages 4 and then 5) and at a query ordered by
`hot` on the page before the largest `int` (the second advance wraps). -/
theorem C12_second_advance_adds_one_witness :
    ((pageThreeQuery.NextPage sampleNow).NextPage sampleNow).Page
        = (pageThreeQuery.NextPage sampleNow).Page + 1 ∧
      ((hotNextToLastPageQuery.NextPage sampleNow).NextPage sampleNow).Page = minInt :=
  ⟨(C12_second_advance_adds_one pageThreeQuery sampleNow sampleNow).2.2.1 (by decide),
   (C12_second_advance_adds_one hotNextToLastPageQuery sampleNow sampleNow).2.2.2 (by decide)⟩

/-- C13 (as stated, refuted): on the largest `int` page, NextPage wraps to the
smallest `int`, not to N + 1. -/
theorem C13_advance_wraps_at_max :
    lastPageQuery.Page ≠ 0 ∧ (lastPageQuery.NextPage sampleNow).Page = minInt ∧
      ¬ ((lastPageQuery.NextPage sampleNow).Page = lastPageQuery.Page + 1) := by
  decide

/-- C13 (amended): for every query with a non-zero page index N that is an
`int` other than the largest one, NextPage returns page N + 1. -/
theorem C13_advance_adds_one (q : RecentJobsQuery) (now : Time) (_hN : q.Page ≠ 0)
    (hlo : minInt ≤ q.Page) (hhi : q.Page < maxInt) :
    (q.NextPage now).Page = q.Page + 1 := by
  rw [RecentJobsQuery.NextPage_Page]
  apply wrapInt_of_range
  · unfold minInt at hlo ⊢; omega
  · omega

/-- C13 at a query on page 3. -/
theorem C13_advance_adds_one_witness :
    (pageThreeQuery.NextPage sampleNow).Page = pageThreeQuery.Page + 1 :=
  C13_advance_adds_one pageThreeQuery sampleNow (by decide) (by decide) (by decide)

/-- C14: NextPage on a receiver holding q returns a pointer to a new struct,
distinct from the receiver, that agrees with q on Amount, JobType, OrderBy,
JobStatus, UserID, UserIDLiked, Prompt, Personal, Dedupe and RefreshAPI, and on
FromDate unless OrderBy is `new` and FromDate is unset; the receiver still
holds q, and every struct that existed before the call is unchanged. -/
theorem C14_NextPage_copies_and_keeps_input (now : Time) (h : QueryHeap) (p : Nat)
    (q : RecentJobsQuery) (hload : h.load p = some q) :
    ∃ (h2 : QueryHeap) (p2 : Nat) (r : RecentJobsQuery),
      NextPagePtr now h p = some (h2, p2) ∧ p2 ≠ p ∧ h2.load p2 = some r ∧
      r = q.NextPage now ∧
      r.Amount = q.Amount ∧ r.JobType = q.JobType ∧ r.OrderBy = q.OrderBy ∧
      r.JobStatus = q.JobStatus ∧ r.UserID = q.UserID ∧ r.UserIDLiked = q.UserIDLiked ∧
      r.Prompt = q.Prompt ∧ r.Personal = q.Personal ∧ r.Dedupe = q.Dedupe ∧
      r.RefreshAPI = q.RefreshAPI ∧
      (¬ (q.OrderBy = OrderNew ∧ q.FromDate.IsZero = true) → r.FromDate = q.FromDate) ∧
      h2.load p = some q ∧ (∀ a, a < h.length → h2.load a = h.load a) := by
  have hp : p < h.length := QueryHeap.load_lt h p q hload
  have hframe := RecentJobsQuery.NextPage_frame now q
  refine ⟨(h.alloc (q.NextPage now)).1, (h.alloc (q.NextPage now)).2, q.NextPage now,
    ?_, ?_, QueryHeap.load_alloc_new h _, rfl, ?_, ?_, ?_, ?_, ?_, ?_, ?_, ?_, ?_, ?_, ?_, ?_, ?_⟩
  · simp [NextPagePtr, hload]
  · simp only [QueryHeap.alloc]
    omega
  · rw [hframe]
  · rw [hframe]
  · rw [hframe]
  · rw [hframe]
  · rw [hframe]
  · rw [hframe]
  · rw [hframe]
  · rw [hframe]
  · rw [hframe]
  · rw [hframe]
  · intro hc
    rw [hframe]
    simp only [hc, if_false]
  · rw [QueryHeap.load_alloc_old h _ p hp, hload]
  · intro a ha
    exact QueryHeap.load_alloc_old h _ a ha

/-- C14 at a memory of two structs, the receiver being the second. -/
theorem C14_NextPage_copies_and_keeps_input_witness :
    ∃ (h2 : QueryHeap) (p2 : Nat) (r : RecentJobsQuery),
      NextPagePtr sampleNow [hotQuery, newQuery] 1 = some (h2, p2) ∧ p2 ≠ 1 ∧
      h2.load p2 = some r ∧ r = newQuery.NextPage sampleNow ∧
      r.Amount = newQuery.Amount ∧ r.JobType = newQuery.JobType ∧
      r.OrderBy = newQuery.OrderBy ∧ r.JobStatus = newQuery.JobStatus ∧
      r.UserID = newQuery.UserID ∧ r.UserIDLiked = newQuery.UserIDLiked ∧
      r.Prompt = newQuery.Prompt ∧ r.Personal = newQuery.Personal ∧
      r.Dedupe = newQuery.Dedupe ∧ r.RefreshAPI = newQuery.RefreshAPI ∧
      (¬ (newQuery.OrderBy = OrderNew ∧ newQuery.FromDate.IsZero = true) →
        r.FromDate = newQuery.FromDate) ∧
      QueryHeap.load h2 1 = some newQuery ∧
      (∀ a, a < [hotQuery, newQuery].length →
        QueryHeap.load h2 a = QueryHeap.load [hotQuery, newQuery] a) :=
  C14_NextPage_copies_and_keeps_input sampleNow [hotQuery, newQuery] 1 newQuery rfl

/-- C15: for every non-empty user id u, Home is the RecentJobs call on the
query Amount = 50, JobType = JobTypeNull, OrderBy = `new`, JobStatus =
JobStatusCompleted, UserID = u, Dedupe = true, every other field zero; when the
request is built, the response has status 200 and the body decodes, the call
builds its one request from that query's parameters and returns a page with
Page = 0 whose jobs are the decoded records, in the decoder's order. -/
theorem C15_Home_query_and_page {Job : Type} (L : Lib Job) (D : Decls) (c : Client)
    (now : Time) (u : String) (req : Request) (resp : Response) (jobs : List Job)
    (hu : u ≠ "")
    (hreq : L.NewRequest "GET" (urlString "app/recent-jobs/" (L.Encode
      (RecentJobsQuery.Values
        { Amount := 50, JobType := D.JobTypeNull, OrderBy := OrderNew,
          JobStatus := D.JobStatusCompleted, UserID := u, UserIDLiked := "",
          FromDate := Time.zero, Page := 0, Prompt := "", Personal := false,
          Dedupe := true, RefreshAPI := 0 }))) = .ok req)
    (hdo : c.Do req = .ok resp) (hstatus : resp.StatusCode = 200)
    (hdec : L.Decode resp.Body = .ok jobs) :
    Client.Home L D c now u
        = Client.RecentJobs L D c now
            { Amount := 50, JobType := D.JobTypeNull, OrderBy := OrderNew,
              JobStatus := D.JobStatusCompleted, UserID := u, UserIDLiked := "",
              FromDate := Time.zero, Page := 0, Prompt := "", Personal := false,
              Dedupe := true, RefreshAPI := 0 } ∧
      (Client.Home L D c now u).2
        = [.newRequest "GET" (urlString "app/recent-jobs/" (L.Encode
            (RecentJobsQuery.Values
              { Amount := 50, JobType := D.JobTypeNull, OrderBy := OrderNew,
                JobStatus := D.JobStatusCompleted, UserID := u, UserIDLiked := "",
                FromDate := Time.zero, Page := 0, Prompt := "", Personal := false,
                Dedupe := true, RefreshAPI := 0 }))),
           .dispatch req, .decode resp.Body, .close resp.Body] ∧
      ∃ page : RecentJobs Job,
        (Client.Home L D c now u).1 = .ok page ∧ page.Page = 0 ∧ page.Jobs = jobs := by
  have hhome : Client.Home L D c now u
        = Client.RecentJobs L D c now
            { Amount := 50, JobType := D.JobTypeNull, OrderBy := OrderNew,
              JobStatus := D.JobStatusCompleted, UserID := u, UserIDLiked := "",
              FromDate := Time.zero, Page := 0, Prompt := "", Personal := false,
              Dedupe := true, RefreshAPI := 0 } := by
    simp [Client.Home, hu, RecentJobsQuery.empty]
  have hcall := Client.RecentJobs_success L D c now _ req resp jobs hreq hdo hstatus hdec
  refine ⟨hhome, ?_, ?_⟩
  · rw [hhome, hcall]
  · rw [hhome, hcall]
    exact ⟨_, rfl, rfl, rfl⟩

/-- C15 at the scenario: user `user123`, a 200 response carrying two records. -/
theorem C15_Home_query_and_page_witness :
    Client.Home scenarioLib sampleDecls scenarioClient sampleNow "user123"
        = Client.RecentJobs scenarioLib sampleDecls scenarioClient sampleNow scenarioQuery ∧
      (Client.Home scenarioLib sampleDecls scenarioClient sampleNow "user123").2
        = [.newRequest "GET"
            (urlString "app/recent-jobs/" (scenarioLib.Encode scenarioQuery.Values)),
           .dispatch scenarioRequest, .decode scenarioResponse.Body,
           .close scenarioResponse.Body] ∧
      ∃ page : RecentJobs String,
        (Client.Home scenarioLib sampleDecls scenarioClient sampleNow "user123").1 = .ok page ∧
          page.Page = 0 ∧ page.Jobs = ["a", "b"] :=
  C15_Home_query_and_page scenarioLib sampleDecls scenarioClient sampleNow "user123"
    scenarioRequest scenarioResponse ["a", "b"] (by decide) rfl rfl rfl rfl

/-- C16: for every query and each of the string fields JobType, OrderBy,
JobStatus, UserID, UserIDLiked and Prompt, Values has the field's key (jobType,
orderBy, jobStatus, userId, userIdLiked, prompt) iff the field is non-empty, and
the key is then bound to the single value that is the field's string. -/
theorem C16_string_fields_omitted_when_empty (q : RecentJobsQuery) :
    (q.Values.Has "jobType" = true ↔ q.JobType ≠ "") ∧
      (q.Values.Has "orderBy" = true ↔ q.OrderBy ≠ "") ∧
      (q.Values.Has "jobStatus" = true ↔ q.JobStatus ≠ "") ∧
      (q.Values.Has "userId" = true ↔ q.UserID ≠ "") ∧
      (q.Values.Has "userIdLiked" = true ↔ q.UserIDLiked ≠ "") ∧
      (q.Values.Has "prompt" = true ↔ q.Prompt ≠ "") ∧
      q.Values.lookup "jobType" = (if q.JobType = "" then none else some [q.JobType]) ∧
      q.Values.lookup "orderBy" = (if q.OrderBy = "" then none else some [q.OrderBy]) ∧
      q.Values.lookup "jobStatus" = (if q.JobStatus = "" then none else some [q.JobStatus]) ∧
      q.Values.lookup "userId" = (if q.UserID = "" then none else some [q.UserID]) ∧
      q.Values.lookup "userIdLiked" = (if q.UserIDLiked = "" then none else some [q.UserIDLiked]) ∧
      q.Values.lookup "prompt" = (if q.Prompt = "" then none else some [q.Prompt]) := by
  refine ⟨?_, ?_, ?_, ?_, ?_, ?_, RecentJobsQuery.Values_jobType q,
    RecentJobsQuery.Values_orderBy q, RecentJobsQuery.Values_jobStatus q,
    RecentJobsQuery.Values_userId q, RecentJobsQuery.Values_userIdLiked q,
    RecentJobsQuery.Values_prompt q⟩
  · unfold UrlValues.Has
    rw [RecentJobsQuery.Values_jobType]
    by_cases h : q.JobType = "" <;> simp [h]
  · unfold UrlValues.Has
    rw [RecentJobsQuery.Values_orderBy]
    by_cases h : q.OrderBy = "" <;> simp [h]
  · unfold UrlValues.Has
    rw [RecentJobsQuery.Values_jobStatus]
    by_cases h : q.JobStatus = "" <;> simp [h]
  · unfold UrlValues.Has
    rw [RecentJobsQuery.Values_userId]
    by_cases h : q.UserID = "" <;> simp [h]
  · unfold UrlValues.Has
    rw [RecentJobsQuery.Values_userIdLiked]
    by_cases h : q.UserIDLiked = "" <;> simp [h]
  · unfold UrlValues.Has
    rw [RecentJobsQuery.Values_prompt]
    by_cases h : q.Prompt = "" <;> simp [h]

/-- C17 (amended): for every set cursor t in UTC whose year lies in 0..9999,
formatting t with FromDateFormat and parsing the text against the same format
succeeds and yields t truncated to microsecond precision. -/
theorem C17_format_parse_round_trip (t : Time) (_hset : t.IsZero = false)
    (hutc : t.offset = 0) (hlo : minInt ≤ t.sec) (hhi : t.sec ≤ maxInt)
    (hy0 : 0 ≤ t.Year) (hy1 : t.Year ≤ 9999) :
    Time.Parse FromDateFormat (t.Format FromDateFormat) = some t.truncMicro := by
  have ha : t.abs < 18446744073709551616 := by
    unfold Time.abs
    omega
  have hns : t.nsec.val - t.nsec.val % 1000 < 1000000000 := by
    have := t.nsec.isLt
    omega
  obtain ⟨hM1, hM2, hD1, hDle, hdate⟩ := Time.Date_absDate t.abs _ ha hns
  obtain ⟨-, -, -, hD2⟩ := Time.absDate_bounds t.abs
  obtain ⟨hh, hmi, hs⟩ := Time.absClock_bounds t.abs
  obtain ⟨y, hy⟩ : ∃ y : Nat, (Time.absDate t.abs).1 = (y : Int) :=
    ⟨(Time.absDate t.abs).1.toNat, (Int.toNat_of_nonneg hy0).symm⟩
  have hyb : y < 10000 := by
    have : (Time.absDate t.abs).1 ≤ 9999 := hy1
    omega
  rw [hy] at hDle hdate
  have hfrac := Time.parse_formatNano t.nsec.val t.nsec.isLt
    { year := y, month := (Time.absDate t.abs).2.1, day := (Time.absDate t.abs).2.2,
      hour := (Time.absClock t.abs).1, min := (Time.absClock t.abs).2.1,
      sec := (Time.absClock t.abs).2.2, nsec := 0 } rfl []
  have hparse := Time.parseChunks_FromDateFormat y (Time.absDate t.abs).2.1
    (Time.absDate t.abs).2.2 (Time.absClock t.abs).1 (Time.absClock t.abs).2.1
    (Time.absClock t.abs).2.2 hyb hM1 hM2 hD2 hh hmi hs _ _ hfrac
  rw [Time.Format_FromDateFormat, hy, Time.appendInt_nat 3 y (by norm_num; omega),
    Time.appendInt_nat 1 (Time.absDate t.abs).2.1 (by norm_num; omega),
    Time.appendInt_nat 1 (Time.absDate t.abs).2.2 (by norm_num; omega),
    Time.appendInt_nat 1 (Time.absClock t.abs).1 (by norm_num; omega),
    Time.appendInt_nat 1 (Time.absClock t.abs).2.1 (by norm_num; omega),
    Time.appendInt_nat 1 (Time.absClock t.abs).2.2 (by norm_num; omega)]
  unfold Time.Parse
  simp only [] at hparse
  simp only [List.append_assoc, List.singleton_append, List.cons_append, List.nil_append,
    Nat.reduceAdd, hparse]
  have hmneg : ¬ (((Time.absDate t.abs).2.1 : Int) < 0) := by omega
  have hdneg : ¬ (((Time.absDate t.abs).2.2 : Int) < 0) := by omega
  have hd1 : ¬ (((Time.absDate t.abs).2.2 : Int) < 1) := by omega
  have hd2 : ¬ (((Time.absDate t.abs).2.2 : Int)
      > Time.daysIn ((Time.absDate t.abs).2.1 : Int) (y : Int)) := by omega
  simp only [hmneg, hdneg, if_false, hd1, hd2, decide_False, Bool.or_self, Bool.false_eq_true,
    hdate, Option.some.injEq]
  apply Time.ext_fields
  · show wrapInt ((t.abs : Int) - Time.internalToAbsolute) = t.sec
    unfold Time.abs wrapInt Time.internalToAbsolute
    unfold minInt at hlo
    unfold maxInt at hhi
    omega
  · rfl
  · exact hutc.symm

/-- C17 at the sample clock reading 2025-11-30 07:59:59.1234 UTC. -/
theorem C17_format_parse_round_trip_witness :
    Time.Parse FromDateFormat (sampleNow.Format FromDateFormat) = some sampleNow.truncMicro :=
  C17_format_parse_round_trip sampleNow rfl rfl (by decide) (by decide) (by decide)
    (by decide)

/-- C17 (as stated, refuted): a set cursor in a Location one hour east of UTC
parses back to an instant one hour later, not to the cursor truncated to
microseconds; and the text of a set cursor in the year 10000 does not parse. -/
theorem C17_round_trip_fails_outside_utc :
    offsetCursor.IsZero = false ∧
      Time.Parse FromDateFormat (offsetCursor.Format FromDateFormat)
        = some { sec := 63900089999, nsec := 123456000, offset := 0 } ∧
      ¬ (Time.Parse FromDateFormat (offsetCursor.Format FromDateFormat)
          = some offsetCursor.truncMicro) ∧
      farFuture.IsZero = false ∧
      Time.Parse FromDateFormat (farFuture.Format FromDateFormat) = none := by
  decide

/-- C18: if Values binds every key alike for two queries, the queries agree on
Amount, JobType, OrderBy, JobStatus, UserID, UserIDLiked, Page, Prompt, Personal,
Dedupe and RefreshAPI. -/
theorem C18_Values_determines_fields (q1 q2 : RecentJobsQuery)
    (h : ∀ k, q1.Values.lookup k = q2.Values.lookup k) :
    q1.Amount = q2.Amount ∧ q1.JobType = q2.JobType ∧ q1.OrderBy = q2.OrderBy ∧
      q1.JobStatus = q2.JobStatus ∧ q1.UserID = q2.UserID ∧
      q1.UserIDLiked = q2.UserIDLiked ∧ q1.Page = q2.Page ∧ q1.Prompt = q2.Prompt ∧
      q1.Personal = q2.Personal ∧ q1.Dedupe = q2.Dedupe ∧ q1.RefreshAPI = q2.RefreshAPI := by
  have hamount := h "amount"
  have hjobType := h "jobType"
  have horderBy := h "orderBy"
  have hjobStatus := h "jobStatus"
  have huserId := h "userId"
  have huserIdLiked := h "userIdLiked"
  have hpage := h "page"
  have hprompt := h "prompt"
  have hpersonal := h "personal"
  have hdedupe := h "dedupe"
  have hrefresh := h "refreshApi"
  rw [RecentJobsQuery.Values_amount, RecentJobsQuery.Values_amount] at hamount
  rw [RecentJobsQuery.Values_jobType, RecentJobsQuery.Values_jobType] at hjobType
  rw [RecentJobsQuery.Values_orderBy, RecentJobsQuery.Values_orderBy] at horderBy
  rw [RecentJobsQuery.Values_jobStatus, RecentJobsQuery.Values_jobStatus] at hjobStatus
  rw [RecentJobsQuery.Values_userId, RecentJobsQuery.Values_userId] at huserId
  rw [RecentJobsQuery.Values_userIdLiked, RecentJobsQuery.Values_userIdLiked] at huserIdLiked
  rw [RecentJobsQuery.Values_page, RecentJobsQuery.Values_page] at hpage
  rw [RecentJobsQuery.Values_prompt, RecentJobsQuery.Values_prompt] at hprompt
  rw [RecentJobsQuery.Values_personal, RecentJobsQuery.Values_personal] at hpersonal
  rw [RecentJobsQuery.Values_dedupe, RecentJobsQuery.Values_dedupe] at hdedupe
  rw [RecentJobsQuery.Values_refreshApi, RecentJobsQuery.Values_refreshApi] at hrefresh
  refine ⟨optional_int_inj _ _ hamount, optional_string_inj _ _ hjobType,
    optional_string_inj _ _ horderBy, optional_string_inj _ _ hjobStatus,
    optional_string_inj _ _ huserId, optional_string_inj _ _ huserIdLiked,
    optional_int_inj _ _ hpage, optional_string_inj _ _ hprompt,
    optional_flag_inj _ _ hpersonal, optional_flag_inj _ _ hdedupe, ?_⟩
  simp only [Option.some.injEq, List.cons.injEq, and_true] at hrefresh
  exact Itoa_injective _ _ hrefresh

/-- C18 at two queries whose cursors differ by one nanosecond: their parameters
are the same, and so are all their fields other than the cursor. -/
theorem C18_Values_determines_fields_witness :
    cursorQueryA.FromDate ≠ cursorQueryB.FromDate ∧
      (cursorQueryA.Amount = cursorQueryB.Amount ∧ cursorQueryA.JobType = cursorQueryB.JobType ∧
        cursorQueryA.OrderBy = cursorQueryB.OrderBy ∧
        cursorQueryA.JobStatus = cursorQueryB.JobStatus ∧
        cursorQueryA.UserID = cursorQueryB.UserID ∧
        cursorQueryA.UserIDLiked = cursorQueryB.UserIDLiked ∧
        cursorQueryA.Page = cursorQueryB.Page ∧ cursorQueryA.Prompt = cursorQueryB.Prompt ∧
        cursorQueryA.Personal = cursorQueryB.Personal ∧
        cursorQueryA.Dedupe = cursorQueryB.Dedupe ∧
        cursorQueryA.RefreshAPI = cursorQueryB.RefreshAPI) :=
  ⟨by decide,
   C18_Values_determines_fields cursorQueryA cursorQueryB
    (fun k => by rw [show cursorQueryA.Values = cursorQueryB.Values by decide])⟩

/-- C19: with a non-zero clock reading, every query returned by NextPage and
the Query of every page returned by RecentJobs satisfies: OrderBy = `new`
implies FromDate is set, whatever the input query was. -/
theorem C19_new_order_has_cursor {Job : Type} (now : Time) (hclock : now.IsZero = false) :
    (∀ q : RecentJobsQuery,
      (q.NextPage now).OrderBy = OrderNew → (q.NextPage now).FromDate.IsZero = false) ∧
    (∀ (L : Lib Job) (D : Decls) (c : Client) (q : RecentJobsQuery) (page : RecentJobs Job),
      (Client.RecentJobs L D c now q).1 = .ok page →
        page.Query.OrderBy = OrderNew → page.Query.FromDate.IsZero = false) := by
  constructor
  · intro q hnew
    rw [RecentJobsQuery.NextPage_OrderBy] at hnew
    rw [RecentJobsQuery.NextPage_FromDate]
    cases hz : q.FromDate.IsZero
    · simp [hz]
    · simp [hnew, Time.IsZero_UTC, hclock]
  · intro L D c q page hok hnew
    obtain ⟨req, resp, jobs, -, -, -, -, hpage⟩ := Client.RecentJobs_ok L D c now q page hok
    subst hpage
    cases hz : q.FromDate.IsZero
    · simp [hz]
    · by_cases ho : q.OrderBy = OrderNew
      · simp [ho, hz, Time.IsZero_UTC, hclock]
      · simp [ho] at hnew

/-- C19 at a sample clock reading, for every input query. -/
theorem C19_new_order_has_cursor_witness :
    (∀ q : RecentJobsQuery,
      (q.NextPage sampleNow).OrderBy = OrderNew →
        (q.NextPage sampleNow).FromDate.IsZero = false) ∧
    (∀ (L : Lib String) (D : Decls) (c : Client) (q : RecentJobsQuery)
        (page : RecentJobs String),
      (Client.RecentJobs L D c sampleNow q).1 = .ok page →
        page.Query.OrderBy = OrderNew → page.Query.FromDate.IsZero = false) :=
  C19_new_order_has_cursor sampleNow rfl

end Midjourney
